import Mathlib

/-!
Verification of the repair-loop engine of the Self-Healing Code Agent.

This file gives a shallow embedding, in Lean, of the core components of the
repository — the sandbox result parser (`src/sandbox/python_executor.py`),
the structured-output validator (`src/llm/schema_validator.py`), the model
call router (`src/llm/router.py`), the context builder
(`src/llm/context_builder.py`), the memory-summarizer node
(`src/agent/nodes/update_learning_log.py`) and the repair-loop state
machine (`src/agent/graph.py`) — and proves the specified properties of
these components against the embedding.

Python strings are modelled as `List Char`; Python floats that only flow
through the code unchanged are modelled as rationals; dictionaries are
modelled as association lists; functions that can raise are modelled with
`Except`/`Option`; side effects of the sandbox (process spawn/kill, temp
file removal) are modelled as an explicit action trace.
-/

/-- Python strings are modelled as lists of characters. -/
abbrev PyStr := List Char

/-- Convert a Lean string literal to the `PyStr` model. -/
def pys (s : String) : PyStr := s.toList

/-- Model of `str.splitlines` (restricted to `\n` as the line separator,
which is the only separator the sandbox wrapper emits): a trailing
newline does not produce a final empty line, and the empty string has no
lines. -/
def py_splitlines : PyStr → List PyStr
  | [] => []
  | c :: rest =>
    if c = '\n' then [] :: py_splitlines rest
    else
      match py_splitlines rest with
      | [] => [[c]]
      | l :: ls => (c :: l) :: ls

/-- Model of Python's `sub in s` substring test. -/
def py_contains (s pat : PyStr) : Bool :=
  s.tails.any (fun t => pat.isPrefixOf t)

/-- Model of `str.removeprefix`. -/
def py_removeLeading (s p : PyStr) : PyStr :=
  if p.isPrefixOf s then s.drop p.length else s

/-- Model of `s.split(":", 1)`: the part before the first `:` together
with the (optional) remainder after it. -/
def py_split_colon1 (s : PyStr) : PyStr × Option PyStr :=
  let a := s.takeWhile (· ≠ ':')
  match s.dropWhile (· ≠ ':') with
  | [] => (a, none)
  | _ :: rest => (a, some rest)

namespace PythonExecutor

/-- `ExecutionResult` from `src/sandbox/python_executor.py`: the structured
result from a sandbox execution.  `elapsed_seconds` is a rational model of
the Python float. -/
structure ExecutionResult where
  passed : Bool
  stdout : PyStr
  stderr : PyStr
  failed_assertions : List PyStr := []
  exception_type : PyStr := []
  exception_message : PyStr := []
  elapsed_seconds : ℚ := 0
  passed_count : Nat := 0
  total_count : Nat := 0
  deriving Repr, DecidableEq

/-- The pass marker emitted by the sandbox wrapper on stdout. -/
def passMarker : PyStr := pys "SANDBOX_RESULT:PASS"

/-- The fail-marker line prefix emitted by the sandbox wrapper on stderr. -/
def failMarker : PyStr := pys "SANDBOX_RESULT:FAIL:"

/-- The exception-marker line prefix emitted by the sandbox wrapper on stderr. -/
def excMarker : PyStr := pys "SANDBOX_RESULT:EXCEPTION:"

/-- Loop body of the marker scan in `_parse_result`: the accumulator holds
`(failed_assertions, exception_type, exception_message)` exactly as the
three mutable Python locals do. -/
def parseStep (acc : List PyStr × PyStr × PyStr) (line : PyStr) :
    List PyStr × PyStr × PyStr :=
  if failMarker.isPrefixOf line then
    (acc.1 ++ [py_removeLeading line failMarker], acc.2.1, acc.2.2)
  else if excMarker.isPrefixOf line then
    (acc.1,
      (py_split_colon1 (py_removeLeading line excMarker)).1,
      ((py_split_colon1 (py_removeLeading line excMarker)).2).getD [])
  else
    acc

/-- `_parse_result(stdout, stderr, elapsed)` from
`src/sandbox/python_executor.py`: interpret the sandbox output markers. -/
def _parse_result (stdout stderr : PyStr) (elapsed : ℚ) : ExecutionResult :=
  if py_contains stdout passMarker then
    { passed := true, stdout := stdout, stderr := stderr,
      elapsed_seconds := elapsed }
  else
    let st := (py_splitlines stderr).foldl parseStep ([], [], [])
    { passed := false, stdout := stdout, stderr := stderr,
      failed_assertions := st.1,
      exception_type := st.2.1,
      exception_message := st.2.2,
      elapsed_seconds := elapsed }

/-- Specification-level view: the messages of all fail-marker lines, in
order. -/
def failMsgsOfLines : List PyStr → List PyStr
  | [] => []
  | l :: ls =>
    if failMarker.isPrefixOf l then
      py_removeLeading l failMarker :: failMsgsOfLines ls
    else
      failMsgsOfLines ls

/-- Specification-level view: the last exception-marker line, if any. -/
def lastExcLine? : List PyStr → Option PyStr
  | [] => none
  | l :: ls =>
    match lastExcLine? ls with
    | some r => some r
    | none => if excMarker.isPrefixOf l then some l else none

/-- The messages of all fail-marker lines of a stderr stream, in order. -/
def failMarkerMessages (stderr : PyStr) : List PyStr :=
  failMsgsOfLines (py_splitlines stderr)

/-- The `(kind, message)` carried by one exception-marker line. -/
def excInfoOfLine (l : PyStr) : PyStr × PyStr :=
  ((py_split_colon1 (py_removeLeading l excMarker)).1,
    ((py_split_colon1 (py_removeLeading l excMarker)).2).getD [])

/-- Side effects of one `execute` call, modelled as data: process spawn,
forcible kill, reaping the killed process, temp-file removal. -/
inductive ProcAction where
  | spawn
  | kill
  | reap
  | unlinkTemp
  deriving Repr, DecidableEq

/-- Outcome of awaiting the sandboxed process: either it completed within
the timeout with captured streams and a measured elapsed time, or the wait
timed out. -/
inductive WaitOutcome where
  | completed (stdout stderr : PyStr) (elapsed : ℚ)
  | timedOut
  deriving Repr

set_option linter.unusedVariables false in
/-- `execute(solution_code, test_code, timeout)` from
`src/sandbox/python_executor.py`, with the process interaction abstracted
into a `WaitOutcome` and the side effects recorded as an action trace.
`timeoutStr` is the decimal rendering of the float `timeout` used in the
f-strings.  On timeout the child is killed and reaped before the timeout
outcome is returned; otherwise captured output is parsed.  In both cases
the temporary file is removed and a result is returned (never raised). -/
def execute (solution_code test_code : PyStr) (timeout : ℚ) (timeoutStr : PyStr)
    (wait : WaitOutcome) : List ProcAction × ExecutionResult :=
  match wait with
  | .timedOut =>
    ([.spawn, .kill, .reap, .unlinkTemp],
      { passed := false,
        stdout := [],
        stderr := pys "EXECUTION TIMEOUT after " ++ timeoutStr ++ pys "s",
        exception_type := pys "TimeoutError",
        exception_message :=
          pys "Execution exceeded " ++ timeoutStr ++ pys " second limit",
        elapsed_seconds := timeout })
  | .completed out err elapsed =>
    ([.spawn, .unlinkTemp], _parse_result out err elapsed)

end PythonExecutor

namespace SchemaValidator

/-- JSON values as produced by `json.loads` (numbers restricted to the
integers, which is the only numeric shape the repository's role schemas
use). -/
inductive JsonValue where
  | null
  | bool (b : Bool)
  | num (n : Int)
  | str (s : PyStr)
  | arr (xs : List JsonValue)
  | obj (fields : List (PyStr × JsonValue))
  deriving Repr

/-- Python `dict` lookup on the association-list model (keys are unique,
first match wins). -/
def dictGet? {α : Type} : List (PyStr × α) → PyStr → Option α
  | [], _ => none
  | (k, v) :: rest, key => if k = key then some v else dictGet? rest key

/-- Python `dict` assignment: updating an existing key keeps its position,
a new key is appended (insertion order). -/
def dictSet {α : Type} : List (PyStr × α) → PyStr → α → List (PyStr × α)
  | [], key, v => [(key, v)]
  | (k, w) :: rest, key, v =>
    if k = key then (key, v) :: rest else (k, w) :: dictSet rest key v

/-- Escaping of one character inside a JSON string literal (model of the
escaping done by `json.dumps`; exotic control characters are left as-is). -/
def jsonEscapeChar (c : Char) : PyStr :=
  if c = '"' then pys "\\\""
  else if c = '\\' then pys "\\\\"
  else if c = '\n' then pys "\\n"
  else if c = '\t' then pys "\\t"
  else if c = '\r' then pys "\\r"
  else [c]

/-- Serialization of a JSON string literal. -/
def dumpsStr (s : PyStr) : PyStr :=
  '"' :: (s.map jsonEscapeChar).flatten ++ ['"']

mutual

/-- Model of `json.dumps` with Python's default separators
`(", ", ": ")`. -/
def json_dumps : JsonValue → PyStr
  | .null => pys "null"
  | .bool b => if b then pys "true" else pys "false"
  | .num n => pys (toString n)
  | .str s => dumpsStr s
  | .arr xs => '[' :: dumpsArr xs ++ [']']
  | .obj fs => '{' :: dumpsObj fs ++ ['}']

/-- Comma-joined serialization of array elements. -/
def dumpsArr : List JsonValue → PyStr
  | [] => []
  | [x] => json_dumps x
  | x :: y :: xs => json_dumps x ++ pys ", " ++ dumpsArr (y :: xs)

/-- Comma-joined serialization of object entries. -/
def dumpsObj : List (PyStr × JsonValue) → PyStr
  | [] => []
  | [(k, v)] => dumpsStr k ++ pys ": " ++ json_dumps v
  | (k, v) :: f :: fs =>
    dumpsStr k ++ pys ": " ++ json_dumps v ++ pys ", " ++ dumpsObj (f :: fs)

end

/-- JSON whitespace test. -/
def isJsonWs (c : Char) : Bool :=
  c = ' ' || c = '\n' || c = '\t' || c = '\r'

/-- Skip JSON whitespace. -/
def skipWs (s : PyStr) : PyStr := s.dropWhile isJsonWs

/-- Decoding of one escape sequence inside a JSON string literal
(`\uXXXX` escapes are not modelled). -/
def unescapeChar (c : Char) : Option Char :=
  if c = '"' then some '"'
  else if c = '\\' then some '\\'
  else if c = '/' then some '/'
  else if c = 'n' then some '\n'
  else if c = 't' then some '\t'
  else if c = 'r' then some '\r'
  else if c = 'b' then some '\x08'
  else if c = 'f' then some '\x0c'
  else none

/-- Parse the body of a JSON string literal (the opening quote already
consumed); raw control characters are accepted, as `json.loads` with
`strict=False` does. -/
def parseString : PyStr → Option (PyStr × PyStr)
  | [] => none
  | '"' :: rest => some ([], rest)
  | '\\' :: c :: rest =>
    match unescapeChar c with
    | some e => (parseString rest).map (fun p => (e :: p.1, p.2))
    | none => none
  | c :: rest => (parseString rest).map (fun p => (c :: p.1, p.2))

/-- Parse a run of decimal digits into a number. -/
def parseDigits (s : PyStr) : Option (Nat × PyStr) :=
  let ds := s.takeWhile Char.isDigit
  if ds = [] then none
  else some (ds.foldl (fun n c => 10 * n + (c.toNat - '0'.toNat)) 0, s.dropWhile Char.isDigit)

mutual

/-- Fuel-indexed recursive-descent parser for one JSON value, modelling
`json.loads(..., strict=False)` on the grammar the repository exchanges
(null, booleans, integers, strings, arrays, objects). Returns the value
and the unconsumed remainder. -/
def parseValue : Nat → PyStr → Option (JsonValue × PyStr)
  | 0, _ => none
  | fuel + 1, s =>
    match skipWs s with
    | 'n' :: 'u' :: 'l' :: 'l' :: rest => some (.null, rest)
    | 't' :: 'r' :: 'u' :: 'e' :: rest => some (.bool true, rest)
    | 'f' :: 'a' :: 'l' :: 's' :: 'e' :: rest => some (.bool false, rest)
    | '"' :: rest => (parseString rest).map (fun p => (.str p.1, p.2))
    | '-' :: rest => (parseDigits rest).map (fun p => (.num (-(p.1 : Int)), p.2))
    | '[' :: rest =>
      match skipWs rest with
      | ']' :: r => some (.arr [], r)
      | _ => (parseItems fuel rest).map (fun p => (.arr p.1, p.2))
    | '{' :: rest =>
      match skipWs rest with
      | '}' :: r => some (.obj [], r)
      | _ =>
        (parseEntries fuel rest).map (fun p =>
          (.obj (p.1.foldl (fun d kv => dictSet d kv.1 kv.2) []), p.2))
    | c :: rest =>
      if c.isDigit then
        (parseDigits (c :: rest)).map (fun p => (.num (p.1 : Int), p.2))
      else none
    | [] => none

/-- Parse the comma-separated elements of a non-empty array, up to and
including the closing bracket. -/
def parseItems : Nat → PyStr → Option (List JsonValue × PyStr)
  | 0, _ => none
  | fuel + 1, s =>
    (parseValue fuel s).bind (fun p =>
      match skipWs p.2 with
      | ',' :: r => (parseItems fuel r).map (fun q => (p.1 :: q.1, q.2))
      | ']' :: r => some ([p.1], r)
      | _ => none)

/-- Parse the comma-separated `"key": value` entries of a non-empty
object, up to and including the closing brace. -/
def parseEntries : Nat → PyStr → Option (List (PyStr × JsonValue) × PyStr)
  | 0, _ => none
  | fuel + 1, s =>
    match skipWs s with
    | '"' :: rest =>
      (parseString rest).bind (fun pk =>
        match skipWs pk.2 with
        | ':' :: r =>
          (parseValue fuel r).bind (fun pv =>
            match skipWs pv.2 with
            | ',' :: r2 => (parseEntries fuel r2).map (fun q => ((pk.1, pv.1) :: q.1, q.2))
            | '}' :: r2 => some ([(pk.1, pv.1)], r2)
            | _ => none)
        | _ => none)
    | _ => none

end

/-- Model of `json.loads(text, strict=False)`: parse one value and require
only whitespace to remain. -/
def json_loads (text : PyStr) : Option JsonValue :=
  match parseValue (2 * text.length + 8) text with
  | some (v, rest) => if skipWs rest = [] then some v else none
  | none => none

/-- Python whitespace test used by `str.strip` and the `\s` regex class. -/
def py_isspace (c : Char) : Bool :=
  c = ' ' || c = '\t' || c = '\n' || c = '\r' || c = '\x0b' || c = '\x0c'

/-- Model of `str.strip()`. -/
def py_strip (s : PyStr) : PyStr :=
  ((s.dropWhile py_isspace).reverse.dropWhile py_isspace).reverse

/-- Split a text at the first triple-backtick fence, if any: the part
before the fence and the part after it. -/
def splitFirstFence? : PyStr → Option (PyStr × PyStr)
  | [] => none
  | '`' :: '`' :: '`' :: rest => some ([], rest)
  | c :: rest => (splitFirstFence? rest).map (fun p => (c :: p.1, p.2))

/-- `_strip_markdown_fences(text)` from `src/llm/schema_validator.py`:
model of searching for ````(?:json)?\s*([\s\S]*?)\s*``` ```` (case
insensitive) and returning the stripped capture, else the stripped text.
The lazy capture ends at the first closing fence; the `\s*` groups wash
out under the final `strip()`. -/
def _strip_markdown_fences (text : PyStr) : PyStr :=
  match splitFirstFence? text with
  | none => py_strip text
  | some (_, afterOpen) =>
    let rest :=
      if (afterOpen.take 4).map Char.toLower = pys "json" then afterOpen.drop 4
      else afterOpen
    match splitFirstFence? (rest.dropWhile py_isspace) with
    | some (content, _) => py_strip content
    | none => py_strip text

/-- The bracket-walking loop of `_extract_json_object`: starting from the
first occurrence of `sc`, count bracket depth while treating characters
inside quoted strings (including escaped characters) as non-structural;
return the number of characters up to and including the balancing close
bracket, if reached.  The state variables mirror the Python locals
`depth`, `in_string`, `escape_next`. -/
def scanLen (sc ec : Char) : PyStr → Int → Bool → Bool → Option Nat
  | [], _, _, _ => none
  | c :: rest, depth, inString, escapeNext =>
    if escapeNext then
      (scanLen sc ec rest depth inString false).map (· + 1)
    else if c = '\\' && inString then
      (scanLen sc ec rest depth inString true).map (· + 1)
    else if c = '"' then
      (scanLen sc ec rest depth (!inString) escapeNext).map (· + 1)
    else if inString then
      (scanLen sc ec rest depth inString escapeNext).map (· + 1)
    else if c = sc then
      (scanLen sc ec rest (depth + 1) inString escapeNext).map (· + 1)
    else if c = ec then
      if depth - 1 = 0 then some 1
      else (scanLen sc ec rest (depth - 1) inString escapeNext).map (· + 1)
    else
      (scanLen sc ec rest depth inString escapeNext).map (· + 1)

/-- One pass of the `for start_char, end_char in [...]` loop of
`_extract_json_object`: find the first `sc`, walk to the balancing `ec`,
and return the span, if both exist. -/
def extractWith (sc ec : Char) (text : PyStr) : Option PyStr :=
  match text.dropWhile (· ≠ sc) with
  | [] => none
  | tl => (scanLen sc ec tl 0 false false).map (fun n => tl.take n)

/-- `_extract_json_object(text)` from `src/llm/schema_validator.py`:
try to extract a balanced `{...}` span starting at the first `{`; if that
fails, try a balanced `[...]` span starting at the first `[`; otherwise
return the text unchanged. -/
def _extract_json_object (text : PyStr) : PyStr :=
  match extractWith '{' '}' text with
  | some s => s
  | none =>
    match extractWith '[' ']' text with
    | some s => s
    | none => text

/-- Spec-side model (written from the amended claim's words, independently
of the source's early-return loop): the one-character transition of the
bracket scan on the state `(depth, inside-string, escaped)`.  An escaped
character is consumed as non-structural; inside a quoted string only a
backslash (escaping the next character) or an unescaped quote (closing the
string) matter; outside a string a quote opens a string and only `sc`/`ec`
change the depth. -/
def scanStep (sc ec : Char) (st : Int × Bool × Bool) (c : Char) :
    Int × Bool × Bool :=
  if st.2.2 then (st.1, st.2.1, false)
  else if st.2.1 then
    if c = '\\' then (st.1, true, true)
    else if c = '"' then (st.1, false, false)
    else (st.1, true, false)
  else if c = '"' then (st.1, true, false)
  else if c = sc then (st.1 + 1, false, false)
  else if c = ec then (st.1 - 1, false, false)
  else (st.1, false, false)

/-- Spec-side model: the length of the shortest nonempty prefix of `cs`
whose scan, started from state `st`, ends at depth `0` — stated
declaratively as a search over all prefix lengths. -/
def spanLenFrom? (sc ec : Char) (st : Int × Bool × Bool) (cs : PyStr) :
    Option Nat :=
  (List.range cs.length).findSome? fun k =>
    if ((cs.take (k + 1)).foldl (scanStep sc ec) st).1 = 0 then some (k + 1)
    else none

/-- Spec-side model: the balanced `sc ... ec` span starting at the first
occurrence of `sc`, under the quoted-string state machine of `scanStep`;
`none` when `sc` does not occur or the scan never balances. -/
def specSpanFor (sc ec : Char) (text : PyStr) : Option PyStr :=
  (spanLenFrom? sc ec (0, false, false) (text.dropWhile (· ≠ sc))).map
    fun n => (text.dropWhile (· ≠ sc)).take n

/-- Spec-side model of the amended claim: select the balanced object span
starting at the first `{`; only when none exists, the balanced array span
starting at the first `[`; when neither exists, the whole text. -/
def specExtractJson (text : PyStr) : PyStr :=
  match specSpanFor '{' '}' text with
  | some s => s
  | none =>
    match specSpanFor '[' ']' text with
    | some s => s
    | none => text

/-- Per-property schema: the optional `"type"` tag, which is the only
keyword the repository's role schemas attach to a property. -/
structure PropSchema where
  jtype : Option PyStr := none
  deriving Repr, DecidableEq

/-- A role's JSON schema: optional top-level `"type"`, the `"properties"`
map and the `"required"` list, which is the schema dialect the
repository's roles use (see `src/tests/test_schema_validator.py`). -/
structure SchemaObj where
  jtype : Option PyStr := none
  properties : List (PyStr × PropSchema) := []
  required : List PyStr := []
  deriving Repr, DecidableEq

/-- JSON-Schema `"type"` keyword semantics on our value model (a boolean
is not an integer, matching the `jsonschema` library). -/
def typeMatches (v : JsonValue) (t : PyStr) : Bool :=
  match v with
  | .str _ => decide (t = pys "string")
  | .num _ => decide (t = pys "integer") || decide (t = pys "number")
  | .bool _ => decide (t = pys "boolean")
  | .arr _ => decide (t = pys "array")
  | .obj _ => decide (t = pys "object")
  | .null => decide (t = pys "null")

/-- The `required_string_fields` list comprehension of `_coerce_parsed`:
the schema-required fields whose declared type is `"string"`, in
`properties` order. -/
def requiredStringFields (schema : SchemaObj) : List PyStr :=
  schema.properties.filterMap fun fd =>
    if fd.2.jtype = some (pys "string") ∧ fd.1 ∈ schema.required then some fd.1
    else none

/-- `isinstance(value, (dict, list))`. -/
def isContainer : JsonValue → Bool
  | .obj _ => true
  | .arr _ => true
  | _ => false

/-- `_coerce_parsed(parsed, schema)` from `src/llm/schema_validator.py`:
for each schema-required string field holding a container value, replace
the value by its `json.dumps` serialization; leave everything else
alone. -/
def _coerce_parsed (parsed : List (PyStr × JsonValue)) (schema : SchemaObj) :
    List (PyStr × JsonValue) :=
  (requiredStringFields schema).foldl
    (fun p f =>
      match dictGet? p f with
      | some v => if isContainer v then dictSet p f (.str (json_dumps v)) else p
      | none => p)
    parsed

/-- Do all present properties with a declared type match that type? -/
def propsOk (fields : List (PyStr × JsonValue))
    (props : List (PyStr × PropSchema)) : Bool :=
  props.all fun fp =>
    match dictGet? fields fp.1, fp.2.jtype with
    | some v, some t => typeMatches v t
    | _, _ => true

/-- Are all required keys present? -/
def requiredOk (fields : List (PyStr × JsonValue)) (req : List PyStr) : Bool :=
  req.all fun f => (dictGet? fields f).isSome

/-- Validity of an instance against a schema, modelling
`jsonschema.validate` on the repository's schema dialect: the top-level
`"type"` keyword, `"required"`, and per-property `"type"` tags
(`required`/`properties` constrain only object instances). -/
def checkOk (v : JsonValue) (schema : SchemaObj) : Bool :=
  (match schema.jtype with
   | none => true
   | some t => typeMatches v t) &&
  (match v with
   | .obj fields =>
     requiredOk fields schema.required && propsOk fields schema.properties
   | _ => true)

/-- `jsonschema.validate(instance, schema)`: `none` when valid, otherwise
a deterministic violation message (the precise text of the library's
message is abstracted). -/
def jsonschema_validate (v : JsonValue) (schema : SchemaObj) : Option PyStr :=
  if checkOk v schema then none
  else some (pys "instance does not conform to schema")

/-- The exceptions that can escape `parse_and_validate`: the
`StructuredOutputError` the module itself raises (carrying the offending
raw text), and the uncaught `AttributeError` raised by `parsed.get` inside
`_coerce_parsed` when the parsed value is not a dict. -/
inductive PyError where
  | structuredOutput (message raw_text : PyStr)
  | attributeError (message : PyStr)
  deriving Repr

/-- Lines 120–129 of `src/llm/schema_validator.py`: with a truthy schema,
run `_coerce_parsed` and then `jsonschema.validate` on the parsed value.
`parsed.get(field)` inside the coercion loop raises `AttributeError` when
`parsed` is not a dict and the loop body runs at least once. -/
def validate_with_schema (parsed : JsonValue) (schema : SchemaObj)
    (raw_text : PyStr) : Except PyError JsonValue :=
  match parsed with
  | .obj fields =>
    let coerced := JsonValue.obj (_coerce_parsed fields schema)
    match jsonschema_validate coerced schema with
    | none => .ok coerced
    | some msg =>
      .error (.structuredOutput (pys "Schema validation failed: " ++ msg) raw_text)
  | v =>
    if requiredStringFields schema = [] then
      match jsonschema_validate v schema with
      | none => .ok v
      | some msg =>
        .error (.structuredOutput (pys "Schema validation failed: " ++ msg) raw_text)
    else
      .error (.attributeError (pys "object has no attribute get"))

/-- The loop body of `_coerce_parsed`, generalized over the replacement
value so that the string-masked variant used to express "the only
violation" can share it. -/
def coerceStepWith (repl : JsonValue → JsonValue)
    (p : List (PyStr × JsonValue)) (f : PyStr) : List (PyStr × JsonValue) :=
  match dictGet? p f with
  | some v => if isContainer v then dictSet p f (repl v) else p
  | none => p

/-- The specification-side "string mask": every container sitting in a
schema-required string field is replaced by the empty string.  An instance
validates after masking exactly when containers-in-string-fields were its
only violations, since validation only looks at the shape of a string
value, not its content. -/
def maskStringFields (fields : List (PyStr × JsonValue)) (schema : SchemaObj) :
    List (PyStr × JsonValue) :=
  (requiredStringFields schema).foldl (coerceStepWith (fun _ => .str [])) fields

/-- Constructor tag of a JSON value; type checks factor through it. -/
def jtag : JsonValue → Nat
  | .null => 0
  | .bool _ => 1
  | .num _ => 2
  | .str _ => 3
  | .arr _ => 4
  | .obj _ => 5

/-- Did `parse_and_validate` return a value? -/
def isOkResult : Except PyError JsonValue → Bool
  | .ok _ => true
  | .error _ => false

/-- Did `parse_and_validate` fail with a `StructuredOutputError`? -/
def isStructuredOutputResult : Except PyError JsonValue → Bool
  | .error (.structuredOutput _ _) => true
  | _ => false

/-- Did `parse_and_validate` fail with an `AttributeError`? -/
def isAttributeErrorResult : Except PyError JsonValue → Bool
  | .error (.attributeError _) => true
  | _ => false

/-- `parse_and_validate(raw_text, schema)` from
`src/llm/schema_validator.py`: strip fences, extract the JSON span, parse
it leniently, then (when a schema is supplied — `none` models the falsy
empty dict) coerce and validate. -/
def parse_and_validate (raw_text : PyStr) (schema : Option SchemaObj) :
    Except PyError JsonValue :=
  let cleaned := _strip_markdown_fences raw_text
  let extracted := _extract_json_object cleaned
  match json_loads extracted with
  | none => .error (.structuredOutput (pys "JSON parse failed") raw_text)
  | some parsed =>
    match schema with
    | none => .ok parsed
    | some sch => validate_with_schema parsed sch raw_text

end SchemaValidator

namespace Router

open SchemaValidator

/-- `_MAX_RETRIES` from `src/llm/router.py`. -/
def _MAX_RETRIES : Nat := 3

/-- `_RETRY_TEMPERATURE_INCREMENT` from `src/llm/router.py`. -/
def _RETRY_TEMPERATURE_INCREMENT : ℚ := 1 / 10

/-- The retry loop of `LLMRouter.call`, with the provider abstracted as
the text it returns on each attempt.  Returns the list of temperatures
passed to the provider (one per attempt made, capped at `1.0`) together
with the outcome.  Only `StructuredOutputError` is caught and retried;
any other exception propagates immediately, as in the Python
`except StructuredOutputError` clause. -/
def callGo (inferText : Nat → PyStr) (schema : Option SchemaObj)
    (base_temperature : ℚ) (attempt : Nat) (lastError : Option PyError) :
    List ℚ × Except PyError JsonValue :=
  if _h : attempt < _MAX_RETRIES then
    let temperature := min (base_temperature + attempt * _RETRY_TEMPERATURE_INCREMENT) 1
    match parse_and_validate (inferText attempt) schema with
    | .ok v => ([temperature], .ok v)
    | .error (.structuredOutput m r) =>
      let rest := callGo inferText schema base_temperature (attempt + 1)
        (some (.structuredOutput m r))
      (temperature :: rest.1, rest.2)
    | .error e => ([temperature], .error e)
  else
    ([], .error (lastError.getD
      (.structuredOutput (pys "All 3 retries exhausted") [])))
termination_by _MAX_RETRIES - attempt
decreasing_by
  simp_wf
  omega

/-- `LLMRouter.call` from `src/llm/router.py` (prompt loading and context
building — external collaborators — already folded into `inferText`). -/
def call (inferText : Nat → PyStr) (schema : Option SchemaObj)
    (base_temperature : ℚ) : List ℚ × Except PyError JsonValue :=
  callGo inferText schema base_temperature 0 none

/-- The temperature the Router passes to the provider on attempt `i`
(specification-side). -/
def expectedTemp (base : ℚ) (i : Nat) : ℚ :=
  min (base + i * Router._RETRY_TEMPERATURE_INCREMENT) 1

end Router

namespace ContextBuilder

open SchemaValidator (dictGet? dictSet)

/-- `_CHARS_PER_TOKEN` from `src/llm/context_builder.py`. -/
def _CHARS_PER_TOKEN : Nat := 4

/-- `_estimate_tokens(text)`: `max(1, len(text) // 4)`. -/
def _estimate_tokens (text : PyStr) : Nat :=
  max 1 (text.length / _CHARS_PER_TOKEN)

/-- `_truncate_to_tokens(text, max_tokens)`: hard-truncate to about
`max_tokens` tokens, appending a truncation note when content was cut. -/
def _truncate_to_tokens (text : PyStr) (max_tokens : Nat) : PyStr :=
  let maxChars := max_tokens * _CHARS_PER_TOKEN
  if text.length ≤ maxChars then text
  else text.take maxChars ++ pys "\n...[TRUNCATED FOR CONTEXT BUDGET]"

/-- `truncation_candidates` from `build_context`. -/
def truncation_candidates : List PyStr :=
  [pys "test_results", pys "iteration_history", pys "current_code",
    pys "code", pys "learning_log", pys "prior_lessons"]

/-- The field-truncation loop of `build_context`: walk the candidate list,
truncating each present field into the local copy `trimmed_vars`, stopping
once the re-estimate fits the budget.  Variable values are modelled as
strings (`str(...)` is applied in the source). -/
def trimLoop (rendered_template : PyStr) (max_context_tokens : Nat) :
    List PyStr → List (PyStr × PyStr) → List (PyStr × PyStr)
  | [], trimmed_vars => trimmed_vars
  | f :: fs, trimmed_vars =>
    match dictGet? trimmed_vars f with
    | none => trimLoop rendered_template max_context_tokens fs trimmed_vars
    | some original =>
      let field_budget := max_context_tokens / 2
      let truncated := _truncate_to_tokens original field_budget
      let trimmed := dictSet trimmed_vars f truncated
      let new_estimate : Int :=
        (_estimate_tokens rendered_template : Int) -
          (_estimate_tokens original : Int) + (_estimate_tokens truncated : Int)
      if new_estimate ≤ (max_context_tokens : Int) then trimmed
      else trimLoop rendered_template max_context_tokens fs trimmed

/-- `build_context(rendered_template, variables, max_context_tokens)` from
`src/llm/context_builder.py`: when over budget the loop fills a local
`trimmed_vars` copy, but the function returns `rendered_template` in every
path. -/
def build_context (rendered_template : PyStr) (vars : List (PyStr × PyStr))
    (max_context_tokens : Nat) : PyStr :=
  if _estimate_tokens rendered_template ≤ max_context_tokens then
    rendered_template
  else
    let _trimmed_vars :=
      trimLoop rendered_template max_context_tokens truncation_candidates vars
    rendered_template

end ContextBuilder

namespace Agent

open SchemaValidator (JsonValue)

/-- `AgentEvent` from `src/agent/events.py` (payload modelled as a JSON
object; `time.time()` timestamps are parameters of the node models). -/
structure AgentEvent where
  type : PyStr
  message : PyStr
  payload : List (PyStr × JsonValue) := []
  timestamp : ℚ := 0
  iteration : Nat := 0
  deriving Repr

/-- `step_event` from `src/agent/events.py`. -/
def step_event (message : PyStr) (iteration : Nat) (timestamp : ℚ) : AgentEvent :=
  { type := pys "step", message := message, payload := [],
    timestamp := timestamp, iteration := iteration }

/-- `learning_update_event` from `src/agent/events.py`. -/
def learning_update_event (lessons : List PyStr) (iteration : Nat)
    (timestamp : ℚ) : AgentEvent :=
  { type := pys "learning_update", message := pys "Learning log updated",
    payload := [(pys "lessons", .arr (lessons.map .str))],
    timestamp := timestamp, iteration := iteration }

/-- The slice of `AgentState` (`src/agent/state.py`) read and written by
the `update_learning_log` node. -/
structure MemoryNodeState where
  iteration : Nat := 0
  events : List AgentEvent := []
  learning_log : List PyStr := []
  root_cause : PyStr := []
  last_execution_passed : Bool := false
  failure_category : PyStr := []
  repair_strategy : PyStr := []
  deriving Repr

/-- The partial state dict returned by `update_learning_log`: the
`learning_log` key is present only on the root-cause branch. -/
structure MemoryNodeUpdate where
  learning_log : Option (List PyStr)
  events : List AgentEvent
  deriving Repr

/-- `update_learning_log(state, router)` from
`src/agent/nodes/update_learning_log.py`.  The router call is abstracted
by `routerLessons`, the `"lessons"` field (`result.get("lessons")`) of the
schema-validated router output; `tStep`/`tUpdate` are the `time.time()`
timestamps of the two emitted events.  A step event is appended first;
with no root cause the node returns only the events; otherwise the new
log is the model's lessons (defaulting to the prior lessons) truncated to
5 entries, and a learning-update event is appended. -/
def update_learning_log (state : MemoryNodeState)
    (routerLessons : Option (List PyStr)) (tStep tUpdate : ℚ) :
    MemoryNodeUpdate :=
  let events := state.events ++
    [step_event (pys "Updating rolling learning log...") state.iteration tStep]
  if state.root_cause = [] then
    { learning_log := none, events := events }
  else
    let prior_lessons := state.learning_log
    let lessons := (routerLessons.getD prior_lessons).take 5
    { learning_log := some lessons,
      events := events ++ [learning_update_event lessons state.iteration tUpdate] }

/-- LangGraph's merge of a node's partial state dict into the run state:
returned keys overwrite, missing keys are left unchanged. -/
def applyMemoryUpdate (state : MemoryNodeState) (u : MemoryNodeUpdate) :
    MemoryNodeState :=
  { state with
    events := u.events,
    learning_log := u.learning_log.getD state.learning_log }

end Agent

namespace Graph

/-- The nodes of the compiled LangGraph state machine of
`src/agent/graph.py` (`done` is LangGraph's `END`). -/
inductive GraphNode where
  | generate
  | adversarial
  | execute
  | diagnose
  | memory
  | increment
  | maxIterations
  | done
  deriving Repr, DecidableEq

/-- The slice of `AgentState` read and written by `_increment_iteration`
and the routing functions: the iteration counter, the configured maximum,
the terminal status and the last execution outcome.  The remaining fields
(code, tests, diagnosis, events, …) are untouched by routing and are
abstracted away. -/
structure LoopState where
  iteration : Nat
  max_iterations : Nat
  status : PyStr
  last_execution_passed : Bool
  deriving Repr, DecidableEq

/-- `_increment_iteration(state)` from `src/agent/graph.py`, with the
partial dict it returns already merged into the state. -/
def _increment_iteration (s : LoopState) : LoopState :=
  let new_iteration := s.iteration + 1
  if new_iteration ≥ s.max_iterations then
    { s with iteration := new_iteration, status := pys "max_iterations_reached" }
  else
    { s with iteration := new_iteration, status := pys "running" }

/-- The labels returned by `_route_after_execution`. -/
inductive ExecRoute where
  | diagnose_failure
  | endRun
  | max_iterations
  deriving Repr, DecidableEq

/-- `_route_after_execution(state)` from `src/agent/graph.py`. -/
def _route_after_execution (s : LoopState) : ExecRoute :=
  if s.last_execution_passed then .endRun
  else if s.status = pys "max_iterations_reached" then .max_iterations
  else if s.iteration ≥ s.max_iterations then .max_iterations
  else .diagnose_failure

/-- The labels returned by `_route_after_increment`. -/
inductive IncrRoute where
  | generate_solution
  | endRun
  deriving Repr, DecidableEq

/-- `_route_after_increment(state)` from `src/agent/graph.py`. -/
def _route_after_increment (s : LoopState) : IncrRoute :=
  if s.status = pys "max_iterations_reached" then .endRun
  else .generate_solution

/-- The state slice written by the `execute_solution` node
(`src/agent/nodes/execute_solution.py`): `last_execution_passed` is the
sandbox verdict and `status` becomes `"success"` on pass and `"running"`
on failure.  The sandbox is abstracted by the oracle `passes`, indexed by
the iteration on which the execution happens. -/
def executeNodeUpdate (passes : Nat → Bool) (s : LoopState) : LoopState :=
  let passed := passes s.iteration
  { s with
    last_execution_passed := passed,
    status := if passed then pys "success" else pys "running" }

/-- One transition of the compiled graph of `build_graph`
(`src/agent/graph.py`): the linear edges generate → adversarial test →
execute, the conditional edges after `execute` and after
`increment_iteration`, the absorbing `max_iterations` node (which sets the
terminal status), and the repair-loop edges diagnose → memory →
increment.  The generate / adversarial-test / diagnose / memory nodes do
not write any of the four routing fields, so on this state slice they are
the identity. -/
def stepFSM (passes : Nat → Bool) : GraphNode × LoopState → GraphNode × LoopState
  | (.generate, s) => (.adversarial, s)
  | (.adversarial, s) => (.execute, s)
  | (.execute, s) =>
    let s' := executeNodeUpdate passes s
    match _route_after_execution s' with
    | .endRun => (.done, s')
    | .max_iterations => (.maxIterations, s')
    | .diagnose_failure => (.diagnose, s')
  | (.diagnose, s) => (.memory, s)
  | (.memory, s) => (.increment, s)
  | (.increment, s) =>
    let s' := _increment_iteration s
    match _route_after_increment s' with
    | .generate_solution => (.generate, s')
    | .endRun => (.done, s')
  | (.maxIterations, s) => (.done, { s with status := pys "max_iterations_reached" })
  | (.done, s) => (.done, s)

/-- The routing slice of `_make_initial_state` from `src/agent/graph.py`. -/
def initialLoopState (max_iterations : Nat) : LoopState :=
  { iteration := 0, max_iterations := max_iterations,
    status := pys "running", last_execution_passed := false }

/-- The run's configuration after `n` transitions from the entry point. -/
def trace (passes : Nat → Bool) (max_iterations : Nat) (n : Nat) :
    GraphNode × LoopState :=
  (stepFSM passes)^[n] (GraphNode.generate, initialLoopState max_iterations)

/-- The reachability invariant of the repair loop: the counter never
exceeds the configured maximum; the status is `"running"` on the way to
`execute` and strictly below the maximum inside the repair tail
(diagnose → memory → increment); at `done` the status is one of the two
terminal values. -/
def Inv : GraphNode × LoopState → Prop := fun c =>
  c.2.iteration ≤ c.2.max_iterations ∧
  (match c.1 with
   | .generate => c.2.status = pys "running"
   | .adversarial => c.2.status = pys "running"
   | .execute => c.2.status = pys "running"
   | .diagnose => c.2.status = pys "running" ∧ c.2.iteration < c.2.max_iterations
   | .memory => c.2.status = pys "running" ∧ c.2.iteration < c.2.max_iterations
   | .increment => c.2.status = pys "running" ∧ c.2.iteration < c.2.max_iterations
   | .maxIterations => True
   | .done => c.2.status = pys "success" ∨ c.2.status = pys "max_iterations_reached")

end Graph


namespace PythonExecutor

/-- A line cannot carry both the fail marker and the exception marker. -/
theorem not_fail_and_exc_prefix {l : PyStr}
    (h1 : failMarker.isPrefixOf l = true)
    (h2 : excMarker.isPrefixOf l = true) : False := by
  rw [List.isPrefixOf_iff_prefix] at h1 h2
  have hle : failMarker.length ≤ excMarker.length := by decide
  have : failMarker <+: excMarker :=
    List.prefix_of_prefix_length_le h1 h2 hle
  revert this
  decide

/-- Unfolding equation for `failMsgsOfLines` on a cons cell. -/
theorem failMsgsOfLines_cons (l : PyStr) (ls : List PyStr) :
    failMsgsOfLines (l :: ls) =
      if failMarker.isPrefixOf l then
        py_removeLeading l failMarker :: failMsgsOfLines ls
      else
        failMsgsOfLines ls := rfl

/-- Unfolding equation for `lastExcLine?` on a cons cell. -/
theorem lastExcLine?_cons (l : PyStr) (ls : List PyStr) :
    lastExcLine? (l :: ls) =
      match lastExcLine? ls with
      | some r => some r
      | none => if excMarker.isPrefixOf l then some l else none := rfl

/-- A line that is not an exception marker does not change the last
exception-marker line. -/
theorem lastExcLine?_cons_of_not_exc {l : PyStr} (ls : List PyStr)
    (h : ¬ excMarker.isPrefixOf l = true) :
    lastExcLine? (l :: ls) = lastExcLine? ls := by
  rw [lastExcLine?_cons]
  cases lastExcLine? ls with
  | none => rw [if_neg h]
  | some r => rfl

/-- The marker-scan fold computes the fail-marker messages in order and the
kind/message of the last exception-marker line. -/
theorem foldl_parseStep (ls : List PyStr) (fa : List PyStr) (et em : PyStr) :
    ls.foldl parseStep (fa, et, em) =
      (fa ++ failMsgsOfLines ls,
        match lastExcLine? ls with
        | none => (et, em)
        | some l => excInfoOfLine l) := by
  induction ls generalizing fa et em with
  | nil => simp [failMsgsOfLines, lastExcLine?]
  | cons l ls ih =>
    by_cases hf : failMarker.isPrefixOf l = true
    · have hne : ¬ excMarker.isPrefixOf l = true := by
        intro h
        exact not_fail_and_exc_prefix hf h
      have hstep : parseStep (fa, et, em) l =
          (fa ++ [py_removeLeading l failMarker], et, em) := by
        unfold parseStep
        rw [if_pos hf]
      rw [List.foldl_cons, hstep, ih, lastExcLine?_cons_of_not_exc ls hne,
        failMsgsOfLines_cons, if_pos hf]
      simp [List.append_assoc]
    · by_cases he : excMarker.isPrefixOf l = true
      · have hstep : parseStep (fa, et, em) l =
            (fa, (excInfoOfLine l).1, (excInfoOfLine l).2) := by
          unfold parseStep
          rw [if_neg hf, if_pos he]
          rfl
        rw [List.foldl_cons, hstep, ih, failMsgsOfLines_cons, if_neg hf,
          lastExcLine?_cons]
        cases lastExcLine? ls with
        | none => rw [if_pos he]
        | some r => rfl
      · have hstep : parseStep (fa, et, em) l = (fa, et, em) := by
          unfold parseStep
          rw [if_neg hf, if_neg he]
        rw [List.foldl_cons, hstep, ih, lastExcLine?_cons_of_not_exc ls he,
          failMsgsOfLines_cons, if_neg hf]

end PythonExecutor

/-- C10: for every rendered template, variables dict and token budget,
`build_context` returns the rendered template string unchanged — the
truncated field values are only written into the local `trimmed_vars` copy
and never substituted into the returned string, even when the estimate
exceeds the budget. -/
theorem build_context_returns_template_unchanged (rendered_template : PyStr)
    (vars : List (PyStr × PyStr)) (max_context_tokens : Nat) :
    ContextBuilder.build_context rendered_template vars max_context_tokens =
      rendered_template := by
  unfold ContextBuilder.build_context
  split <;> rfl

/-- C2: for every solution/test pair whose sandboxed process times out,
`execute` returns (rather than raises) an outcome with `passed = false`
and exception kind `"TimeoutError"`, and the child process is forcibly
killed (and reaped) before the result is returned. -/
theorem execute_timeout_kills_and_reports (solution_code test_code : PyStr)
    (timeout : ℚ) (timeoutStr : PyStr) :
    (PythonExecutor.execute solution_code test_code timeout timeoutStr
        .timedOut).2.passed = false ∧
    (PythonExecutor.execute solution_code test_code timeout timeoutStr
        .timedOut).2.exception_type = pys "TimeoutError" ∧
    PythonExecutor.ProcAction.kill ∈
      (PythonExecutor.execute solution_code test_code timeout timeoutStr
        .timedOut).1 := by
  refine ⟨rfl, rfl, ?_⟩
  simp [PythonExecutor.execute]

/-- C4: after every `summarize_memory` step the run state's learning log
has at most 5 entries, no matter how many lessons the model supplies
(`routerLessons`); the standing ≤ 5 invariant on the incoming log covers
the no-root-cause branch, and on the root-cause branch the bound holds
outright by the defensive truncation. -/
theorem update_learning_log_caps_log (s : Agent.MemoryNodeState)
    (routerLessons : Option (List PyStr)) (tStep tUpdate : ℚ)
    (hlog : s.learning_log.length ≤ 5) :
    (Agent.applyMemoryUpdate s
        (Agent.update_learning_log s routerLessons tStep tUpdate)).learning_log.length ≤ 5 := by
  unfold Agent.update_learning_log Agent.applyMemoryUpdate
  by_cases h : s.root_cause = []
  · rw [if_pos h]
    exact hlog
  · rw [if_neg h]
    simp only [Option.getD_some, List.length_take]
    exact Nat.min_le_left 5 _

open Agent in
/-- Witness for C4 at a concrete state whose root cause is set and whose
model supplies 8 lessons. -/
theorem update_learning_log_caps_log_witness :
    ({ iteration := 1, learning_log := [pys "l0"], root_cause := pys "off by one"
        : Agent.MemoryNodeState }).learning_log.length ≤ 5 ∧
    (Agent.applyMemoryUpdate
        { iteration := 1, learning_log := [pys "l0"], root_cause := pys "off by one" }
        (Agent.update_learning_log
          { iteration := 1, learning_log := [pys "l0"], root_cause := pys "off by one" }
          (some [pys "a", pys "b", pys "c", pys "d", pys "e", pys "f", pys "g", pys "h"])
          0 0)).learning_log.length ≤ 5 :=
  ⟨by decide,
    update_learning_log_caps_log
      { iteration := 1, learning_log := [pys "l0"], root_cause := pys "off by one" }
      (some [pys "a", pys "b", pys "c", pys "d", pys "e", pys "f", pys "g", pys "h"])
      0 0 (by decide)⟩

/-- `_parse_result` on streams without the pass marker: the result is the
failing record built from the marker scan. -/
theorem parse_result_of_no_pass (stdout stderr : PyStr) (elapsed : ℚ)
    (h : py_contains stdout PythonExecutor.passMarker = false) :
    PythonExecutor._parse_result stdout stderr elapsed =
      { passed := false, stdout := stdout, stderr := stderr,
        failed_assertions :=
          PythonExecutor.failMsgsOfLines (py_splitlines stderr),
        exception_type :=
          (match PythonExecutor.lastExcLine? (py_splitlines stderr) with
            | none => (([] : PyStr), ([] : PyStr))
            | some l => PythonExecutor.excInfoOfLine l).1,
        exception_message :=
          (match PythonExecutor.lastExcLine? (py_splitlines stderr) with
            | none => (([] : PyStr), ([] : PyStr))
            | some l => PythonExecutor.excInfoOfLine l).2,
        elapsed_seconds := elapsed } := by
  unfold PythonExecutor._parse_result
  rw [if_neg (by simp [h])]
  simp only [PythonExecutor.foldl_parseStep, List.nil_append]

/-- C1: the sandbox result parser returns `passed = true` (with empty
`failed_assertions`) exactly when the pass marker occurs on stdout;
otherwise it returns `passed = false`, with every fail marker's message
from stderr appended to `failed_assertions` in order, and with the
exception kind and message taken from the (last) exception marker on
stderr when one is present, empty otherwise. -/
theorem parse_result_markers (stdout stderr : PyStr) (elapsed : ℚ) :
    ((PythonExecutor._parse_result stdout stderr elapsed).passed = true ↔
      py_contains stdout PythonExecutor.passMarker = true) ∧
    (py_contains stdout PythonExecutor.passMarker = true →
      PythonExecutor._parse_result stdout stderr elapsed =
        { passed := true, stdout := stdout, stderr := stderr,
          elapsed_seconds := elapsed }) ∧
    (py_contains stdout PythonExecutor.passMarker = false →
      (PythonExecutor._parse_result stdout stderr elapsed).passed = false ∧
      (PythonExecutor._parse_result stdout stderr elapsed).failed_assertions =
        PythonExecutor.failMarkerMessages stderr ∧
      (∀ l, PythonExecutor.lastExcLine? (py_splitlines stderr) = some l →
        (PythonExecutor._parse_result stdout stderr elapsed).exception_type =
          (PythonExecutor.excInfoOfLine l).1 ∧
        (PythonExecutor._parse_result stdout stderr elapsed).exception_message =
          (PythonExecutor.excInfoOfLine l).2) ∧
      (PythonExecutor.lastExcLine? (py_splitlines stderr) = none →
        (PythonExecutor._parse_result stdout stderr elapsed).exception_type = [] ∧
        (PythonExecutor._parse_result stdout stderr elapsed).exception_message = [])) := by
  by_cases hp : py_contains stdout PythonExecutor.passMarker = true
  · have hres : PythonExecutor._parse_result stdout stderr elapsed =
        { passed := true, stdout := stdout, stderr := stderr,
          elapsed_seconds := elapsed } := by
      unfold PythonExecutor._parse_result
      rw [if_pos hp]
    refine ⟨by simp [hres, hp], fun _ => hres, fun hfalse => ?_⟩
    rw [hp] at hfalse
    exact absurd hfalse (by simp)
  · have hp' : py_contains stdout PythonExecutor.passMarker = false := by
      simpa using hp
    have hres := parse_result_of_no_pass stdout stderr elapsed hp'
    refine ⟨by simp [hres, hp'], fun htrue => absurd htrue hp, fun _ => ?_⟩
    refine ⟨by simp [hres], by simp [hres]; rfl, fun l hl => ?_, fun hl => ?_⟩
    · rw [hres]
      simp [hl]
    · rw [hres]
      simp [hl]

/-- Witness for C1 on concrete streams: stdout without the pass marker,
stderr carrying one fail marker and one exception marker. -/
theorem parse_result_markers_witness :
    py_contains (pys "done")
      PythonExecutor.passMarker = false ∧
    (PythonExecutor._parse_result (pys "done")
        (pys "SANDBOX_RESULT:FAIL:assert add(1, 2) == 3\nSANDBOX_RESULT:EXCEPTION:ValueError:bad input")
        0).failed_assertions =
      PythonExecutor.failMarkerMessages
        (pys "SANDBOX_RESULT:FAIL:assert add(1, 2) == 3\nSANDBOX_RESULT:EXCEPTION:ValueError:bad input") :=
  ⟨by decide,
    ((parse_result_markers (pys "done")
        (pys "SANDBOX_RESULT:FAIL:assert add(1, 2) == 3\nSANDBOX_RESULT:EXCEPTION:ValueError:bad input")
        0).2.2 (by decide)).2.1⟩

/-- The spec-side prefix search unfolds one character at a time: a
one-character prefix balancing at once, or a shifted search from the
advanced state. -/
theorem spanLenFrom?_cons (sc ec : Char) (st : Int × Bool × Bool) (c : Char)
    (rest : PyStr) :
    SchemaValidator.spanLenFrom? sc ec st (c :: rest) =
      if (SchemaValidator.scanStep sc ec st c).1 = 0 then some 1
      else
        (SchemaValidator.spanLenFrom? sc ec
          (SchemaValidator.scanStep sc ec st c) rest).map (· + 1) := by
  unfold SchemaValidator.spanLenFrom?
  rw [List.length_cons, List.range_succ_eq_map]
  by_cases h : (SchemaValidator.scanStep sc ec st c).1 = 0
  · rw [List.findSome?_cons_of_isSome _
      (by simp [List.take_succ_cons, h]), if_pos h]
    simp [List.take_succ_cons, h]
  · rw [List.findSome?_cons_of_isNone _
      (by simp [List.take_succ_cons, h]), if_neg h]
    rw [List.findSome?_map, List.map_findSome?]
    have hfg : ((fun k =>
        if (((c :: rest).take (k + 1)).foldl
            (SchemaValidator.scanStep sc ec) st).1 = 0 then
          some (k + 1)
        else none) ∘ Nat.succ) =
        (Option.map (· + 1) ∘ fun k =>
          if ((rest.take (k + 1)).foldl (SchemaValidator.scanStep sc ec)
              (SchemaValidator.scanStep sc ec st c)).1 = 0 then
            some (k + 1)
          else none) := by
      funext k
      simp only [Function.comp_apply, Nat.succ_eq_add_one,
        List.take_succ_cons, List.foldl_cons]
      by_cases hk : ((rest.take (k + 1)).foldl (SchemaValidator.scanStep sc ec)
          (SchemaValidator.scanStep sc ec st c)).1 = 0
      · simp [hk]
      · simp [hk]
    rw [hfg]

/-- The source scan with its early return computes exactly the spec-side
least balanced prefix, from every state of depth at least 1. -/
theorem scanLen_eq_spanLenFrom (sc ec : Char) :
    ∀ (cs : PyStr) (d : Int) (i e : Bool), 1 ≤ d →
      SchemaValidator.scanLen sc ec cs d i e =
        SchemaValidator.spanLenFrom? sc ec (d, i, e) cs := by
  intro cs
  induction cs with
  | nil => intro d i e _; rfl
  | cons c rest ih =>
    intro d i e hd
    have hdne : ¬(d = 0) := by omega
    rw [spanLenFrom?_cons]
    cases e with
    | true =>
      have hstep : SchemaValidator.scanStep sc ec (d, i, true) c =
          (d, i, false) := by
        simp [SchemaValidator.scanStep]
      rw [hstep,
        if_neg (show ¬((d, i, false) : Int × Bool × Bool).1 = 0 from hdne),
        ← ih d i false hd]
      simp [SchemaValidator.scanLen]
    | false =>
      cases i with
      | true =>
        by_cases hb : c = '\\'
        · have hstep : SchemaValidator.scanStep sc ec (d, true, false) c =
              (d, true, true) := by
            simp [SchemaValidator.scanStep, hb]
          rw [hstep,
            if_neg (show ¬((d, true, true) : Int × Bool × Bool).1 = 0 from hdne),
            ← ih d true true hd]
          simp [SchemaValidator.scanLen, hb]
        · by_cases hq : c = '"'
          · have hstep : SchemaValidator.scanStep sc ec (d, true, false) c =
                (d, false, false) := by
              simp [SchemaValidator.scanStep, hb, hq]
            rw [hstep,
              if_neg (show ¬((d, false, false) : Int × Bool × Bool).1 = 0 from
                hdne),
              ← ih d false false hd]
            simp [SchemaValidator.scanLen, hb, hq]
          · have hstep : SchemaValidator.scanStep sc ec (d, true, false) c =
                (d, true, false) := by
              simp [SchemaValidator.scanStep, hb, hq]
            rw [hstep,
              if_neg (show ¬((d, true, false) : Int × Bool × Bool).1 = 0 from
                hdne),
              ← ih d true false hd]
            simp [SchemaValidator.scanLen, hb, hq]
      | false =>
        by_cases hq : c = '"'
        · have hstep : SchemaValidator.scanStep sc ec (d, false, false) c =
              (d, true, false) := by
            simp [SchemaValidator.scanStep, hq]
          rw [hstep,
            if_neg (show ¬((d, true, false) : Int × Bool × Bool).1 = 0 from
              hdne),
            ← ih d true false hd]
          simp [SchemaValidator.scanLen, hq]
        · by_cases hs : c = sc
          · have hq' : ¬(sc = '"') := hs ▸ hq
            have hstep : SchemaValidator.scanStep sc ec (d, false, false) c =
                (d + 1, false, false) := by
              simp [SchemaValidator.scanStep, hq, hq', hs]
            have hne1 : ¬((d : Int) + 1 = 0) := by omega
            rw [hstep,
              if_neg (show ¬((d + 1, false, false) : Int × Bool × Bool).1 = 0
                from hne1),
              ← ih (d + 1) false false (by omega)]
            simp [SchemaValidator.scanLen, hq, hq', hs]
          · by_cases he2 : c = ec
            · have hqe : ¬(ec = '"') := he2 ▸ hq
              have hse : ¬(ec = sc) := he2 ▸ hs
              have hstep : SchemaValidator.scanStep sc ec (d, false, false) c =
                  (d - 1, false, false) := by
                simp [SchemaValidator.scanStep, hq, hs, he2, hqe, hse]
              by_cases hd1 : (d : Int) - 1 = 0
              · rw [hstep,
                  if_pos (show ((d - 1, false, false) :
                    Int × Bool × Bool).1 = 0 from hd1)]
                simp [SchemaValidator.scanLen, hq, hs, he2, hqe, hse, hd1]
              · rw [hstep,
                  if_neg (show ¬((d - 1, false, false) :
                    Int × Bool × Bool).1 = 0 from hd1),
                  ← ih (d - 1) false false (by omega)]
                simp [SchemaValidator.scanLen, hq, hs, he2, hqe, hse, hd1]
            · have hstep : SchemaValidator.scanStep sc ec (d, false, false) c =
                  (d, false, false) := by
                simp [SchemaValidator.scanStep, hq, hs, he2]
              rw [hstep,
                if_neg (show ¬((d, false, false) : Int × Bool × Bool).1 = 0
                  from hdne),
                ← ih d false false hd]
              simp [SchemaValidator.scanLen, hq, hs, he2]

/-- One pass of the bracket loop agrees with the spec-side span selection,
for any opening bracket other than the quote character. -/
theorem extractWith_eq_specSpanFor (sc ec : Char) (hq : sc ≠ '"')
    (text : PyStr) :
    SchemaValidator.extractWith sc ec text =
      SchemaValidator.specSpanFor sc ec text := by
  unfold SchemaValidator.extractWith SchemaValidator.specSpanFor
  cases htl : text.dropWhile (· ≠ sc) with
  | nil => rfl
  | cons c rest =>
    have hc : c = sc := by
      have h := List.head?_dropWhile_not (fun x => decide (x ≠ sc)) text
      rw [htl] at h
      simpa using h
    rw [hc]
    show (SchemaValidator.scanLen sc ec (sc :: rest) 0 false false).map
        (fun n => (sc :: rest).take n) = _
    have hstep : SchemaValidator.scanStep sc ec (0, false, false) sc =
        (1, false, false) := by
      simp [SchemaValidator.scanStep, hq]
    have hl : SchemaValidator.scanLen sc ec (sc :: rest) 0 false false =
        SchemaValidator.spanLenFrom? sc ec (0, false, false) (sc :: rest) := by
      rw [spanLenFrom?_cons, hstep,
        if_neg (show ¬(((1 : Int), false, false) : Int × Bool × Bool).1 = 0 by
          norm_num),
        ← scanLen_eq_spanLenFrom sc ec rest 1 false false (by norm_num)]
      simp [SchemaValidator.scanLen, hq]
    rw [hl]

/-- C7 counterexample: in `"[1] {"a": 2}"` the first opening bracket is
the `[` of the balanced span `[1]`, yet `_extract_json_object` returns the
later `{...}` span — an object span is preferred over an earlier array
span, refuting "whichever kind of opening bracket occurs first". -/
theorem extract_json_object_priority_counterexample :
    SchemaValidator._extract_json_object (pys "[1] \x7b\"a\": 2\x7d") =
      pys "\x7b\"a\": 2\x7d" ∧
    SchemaValidator._extract_json_object (pys "[1] \x7b\"a\": 2\x7d") ≠
      pys "[1]" ∧
    (pys "[1] \x7b\"a\": 2\x7d").take 3 = pys "[1]" := by
  refine ⟨by rfl, by decide, by rfl⟩

/-- C7 (amended): on every input text, `_extract_json_object` computes
the spec-side selection `specExtractJson`: the balanced span starting at
the first `{` — bracket depth counted with characters inside quoted
strings, including escaped characters, treated as non-structural — even
when prose precedes or follows it; only when no balanced object span
exists, the balanced span starting at the first `[`, selected the same
way; and when neither exists, the whole text unchanged.  The closed
conjuncts exercise the spec model itself: the object span is selected
over an earlier balanced array span, the array fallback fires without an
object span, and a bracketless text comes back whole. -/
theorem extract_json_object_refines_spec (text : PyStr) :
    SchemaValidator._extract_json_object text =
      SchemaValidator.specExtractJson text ∧
    SchemaValidator.specExtractJson (pys "[1] \x7b\"a\": 2\x7d") =
      pys "\x7b\"a\": 2\x7d" ∧
    SchemaValidator.specExtractJson (pys "x [1, 2] y") = pys "[1, 2]" ∧
    SchemaValidator.specExtractJson (pys "no json here") =
      pys "no json here" := by
  refine ⟨?_, by rfl, by rfl, by rfl⟩
  unfold SchemaValidator._extract_json_object SchemaValidator.specExtractJson
  rw [extractWith_eq_specSpanFor '{' '}' (by decide) text,
    extractWith_eq_specSpanFor '[' ']' (by decide) text]

/-- C8 counterexample: with no root cause, `update_learning_log` still
appends a step event before the early return, so the event list it
returns is *not* equal to the event list it received (here: length 1
versus length 0). -/
theorem update_learning_log_events_change_counterexample :
    (Agent.update_learning_log {} none 0 0).events ≠
      ({} : Agent.MemoryNodeState).events := by
  intro h
  have hlen := congrArg List.length h
  simp [Agent.update_learning_log, Agent.step_event] at hlen

/-- C8 (amended): with no root cause the step is a no-op on the learning
log (the returned partial state carries no `learning_log` key, so the
merged state's log is unchanged), yet the returned event list is not the
received list: it equals the received list with exactly one appended
event, that event is a step event (type `"step"`), and no learning-update
event is added. -/
theorem update_learning_log_no_root_cause (s : Agent.MemoryNodeState)
    (routerLessons : Option (List PyStr)) (tStep tUpdate : ℚ)
    (h : s.root_cause = []) :
    (Agent.update_learning_log s routerLessons tStep tUpdate).learning_log = none ∧
    (Agent.applyMemoryUpdate s
        (Agent.update_learning_log s routerLessons tStep tUpdate)).learning_log =
      s.learning_log ∧
    (Agent.update_learning_log s routerLessons tStep tUpdate).events =
      s.events ++
        [Agent.step_event (pys "Updating rolling learning log...") s.iteration tStep] ∧
    (Agent.update_learning_log s routerLessons tStep tUpdate).events ≠
      s.events ∧
    (Agent.step_event (pys "Updating rolling learning log...") s.iteration
        tStep).type = pys "step" ∧
    ((Agent.update_learning_log s routerLessons tStep tUpdate).events.filter
        fun ev => ev.type = pys "learning_update") =
      s.events.filter fun ev => ev.type = pys "learning_update" := by
  have hev : (Agent.update_learning_log s routerLessons tStep tUpdate).events =
      s.events ++
        [Agent.step_event (pys "Updating rolling learning log...")
          s.iteration tStep] := by
    unfold Agent.update_learning_log
    rw [if_pos h]
  have hll :
      (Agent.update_learning_log s routerLessons tStep tUpdate).learning_log =
        none := by
    unfold Agent.update_learning_log
    rw [if_pos h]
  refine ⟨hll, ?_, hev, ?_, rfl, ?_⟩
  · unfold Agent.applyMemoryUpdate
    rw [hll]
    rfl
  · intro heq
    rw [hev] at heq
    have hlen := congrArg List.length heq
    simp at hlen
  · have hne : pys "step" ≠ pys "learning_update" := by decide
    rw [hev, List.filter_append]
    simp [Agent.step_event, hne]

namespace SchemaValidator

/-- Looking up the key just set yields the value set. -/
theorem dictGet?_dictSet_self {α : Type} (d : List (PyStr × α)) (k : PyStr) (v : α) :
    dictGet? (dictSet d k v) k = some v := by
  induction d with
  | nil => simp [dictSet, dictGet?]
  | cons e d ih =>
    rcases e with ⟨k', w⟩
    by_cases h : k' = k
    · simp [dictSet, dictGet?, h]
    · simp [dictSet, dictGet?, h, ih]

/-- Setting one key leaves lookups of other keys unchanged. -/
theorem dictGet?_dictSet_ne {α : Type} (d : List (PyStr × α)) (k k' : PyStr) (v : α)
    (h : k' ≠ k) :
    dictGet? (dictSet d k v) k' = dictGet? d k' := by
  induction d with
  | nil => simp [dictSet, dictGet?, Ne.symm h]
  | cons e d ih =>
    rcases e with ⟨k'', w⟩
    by_cases hk : k'' = k
    · subst hk
      simp [dictSet, dictGet?, Ne.symm h]
    · simp [dictSet, dictGet?, hk, ih]

/-- One coercion step leaves other fields unchanged. -/
theorem coerceStepWith_get_ne (repl : JsonValue → JsonValue)
    (p : List (PyStr × JsonValue)) (f f' : PyStr) (h : f' ≠ f) :
    dictGet? (coerceStepWith repl p f) f' = dictGet? p f' := by
  unfold coerceStepWith
  cases hg : dictGet? p f with
  | none => rfl
  | some v =>
    by_cases hc : isContainer v = true
    · simp [hc, dictGet?_dictSet_ne p f f' (repl v) h]
    · simp [hc]

/-- One coercion step preserves key presence. -/
theorem coerceStepWith_isSome (repl : JsonValue → JsonValue)
    (p : List (PyStr × JsonValue)) (f f' : PyStr) :
    (dictGet? (coerceStepWith repl p f) f').isSome = (dictGet? p f').isSome := by
  by_cases h : f' = f
  · subst h
    unfold coerceStepWith
    cases hg : dictGet? p f' with
    | none => simp [hg]
    | some v =>
      by_cases hc : isContainer v = true
      · simp [hg, hc, dictGet?_dictSet_self]
      · simp [hg, hc]
  · rw [coerceStepWith_get_ne repl p f f' h]

/-- A field not in the processed list is untouched by the coercion fold. -/
theorem foldGet_not_mem (repl : JsonValue → JsonValue) (fs : List PyStr)
    (p : List (PyStr × JsonValue)) (f : PyStr) (h : f ∉ fs) :
    dictGet? (fs.foldl (coerceStepWith repl) p) f = dictGet? p f := by
  induction fs generalizing p with
  | nil => rfl
  | cons g fs ih =>
    rw [List.foldl_cons, ih _ (fun hh => h (List.mem_cons_of_mem g hh)),
      coerceStepWith_get_ne repl p g f (fun hh => h (hh ▸ List.mem_cons_self g fs))]

/-- A non-container value is never replaced by the coercion fold. -/
theorem foldGet_stable (repl : JsonValue → JsonValue) (fs : List PyStr)
    (p : List (PyStr × JsonValue)) (f : PyStr) (v : JsonValue)
    (hv : isContainer v = false) (hg : dictGet? p f = some v) :
    dictGet? (fs.foldl (coerceStepWith repl) p) f = some v := by
  induction fs generalizing p with
  | nil => exact hg
  | cons g fs ih =>
    rw [List.foldl_cons]
    apply ih
    by_cases h : f = g
    · subst h
      unfold coerceStepWith
      simp [hg, hv]
    · rw [coerceStepWith_get_ne repl p g f h]
      exact hg

/-- A container value in a processed field is replaced by the (stable)
replacement value. -/
theorem foldGet_replaced (repl : JsonValue → JsonValue)
    (hrepl : ∀ w, isContainer (repl w) = false) (fs : List PyStr)
    (p : List (PyStr × JsonValue)) (f : PyStr) (v : JsonValue)
    (hg : dictGet? p f = some v) (hc : isContainer v = true) :
    f ∈ fs → dictGet? (fs.foldl (coerceStepWith repl) p) f = some (repl v) := by
  induction fs generalizing p with
  | nil => intro hmem; cases hmem
  | cons g fs ih =>
    intro hmem
    rw [List.foldl_cons]
    by_cases h : f = g
    · subst h
      have hstep : coerceStepWith repl p f = dictSet p f (repl v) := by
        unfold coerceStepWith
        simp [hg, hc]
      rw [hstep]
      exact foldGet_stable repl fs _ f (repl v) (hrepl v)
        (dictGet?_dictSet_self p f (repl v))
    · have hmem' : f ∈ fs := by
        rcases List.mem_cons.mp hmem with h' | h'
        · exact absurd h' h
        · exact h'
      exact ih _ (by rw [coerceStepWith_get_ne repl p g f h]; exact hg) hmem'

/-- `isContainer` factors through the constructor tag. -/
theorem isContainer_eq_of_jtag {v w : JsonValue} (h : jtag v = jtag w) :
    isContainer v = isContainer w := by
  cases v <;> cases w <;> simp_all [jtag, isContainer]

/-- `typeMatches` factors through the constructor tag. -/
theorem typeMatches_eq_of_jtag {v w : JsonValue} (h : jtag v = jtag w)
    (t : PyStr) : typeMatches v t = typeMatches w t := by
  cases v <;> cases w <;> simp_all [jtag, typeMatches]

/-- Two coercion folds over the same field list, whose replacements have
the same tag, keep the two dicts pointwise tag-equal. -/
theorem fold_tag_paired (repl1 repl2 : JsonValue → JsonValue)
    (hr : ∀ w1 w2, jtag (repl1 w1) = jtag (repl2 w2)) (fs : List PyStr)
    (p q : List (PyStr × JsonValue))
    (hpq : ∀ f, (dictGet? p f).map jtag = (dictGet? q f).map jtag) :
    ∀ f, (dictGet? (fs.foldl (coerceStepWith repl1) p) f).map jtag =
      (dictGet? (fs.foldl (coerceStepWith repl2) q) f).map jtag := by
  induction fs generalizing p q with
  | nil => exact hpq
  | cons g fs ih =>
    rw [List.foldl_cons, List.foldl_cons]
    apply ih
    intro f
    by_cases h : f = g
    · subst h
      have hpair := hpq f
      cases hgp : dictGet? p f with
      | none =>
        cases hgq : dictGet? q f with
        | none =>
          unfold coerceStepWith
          simp only [hgp, hgq]
        | some w =>
          rw [hgp, hgq] at hpair
          simp at hpair
      | some v =>
        cases hgq : dictGet? q f with
        | none =>
          rw [hgp, hgq] at hpair
          simp at hpair
        | some w =>
          have htag : jtag v = jtag w := by
            rw [hgp, hgq] at hpair
            simpa using hpair
          by_cases hc : isContainer v = true
          · have hcw : isContainer w = true := (isContainer_eq_of_jtag htag) ▸ hc
            have e1 : coerceStepWith repl1 p f = dictSet p f (repl1 v) := by
              unfold coerceStepWith
              simp [hgp, hc]
            have e2 : coerceStepWith repl2 q f = dictSet q f (repl2 w) := by
              unfold coerceStepWith
              simp [hgq, hcw]
            rw [e1, e2, dictGet?_dictSet_self, dictGet?_dictSet_self]
            simp [hr v w]
          · have hcw : ¬ isContainer w = true :=
              fun hh => hc ((isContainer_eq_of_jtag htag) ▸ hh)
            have e1 : coerceStepWith repl1 p f = p := by
              unfold coerceStepWith
              simp [hgp, hc]
            have e2 : coerceStepWith repl2 q f = q := by
              unfold coerceStepWith
              simp [hgq, hcw]
            rw [e1, e2]
            exact hpq f
    · rw [coerceStepWith_get_ne repl1 p g f h,
        coerceStepWith_get_ne repl2 q g f h]
      exact hpq f

/-- `List.all` respects pointwise-equal predicates. -/
theorem all_congr_mem {α : Type} (xs : List α) (f g : α → Bool)
    (h : ∀ x ∈ xs, f x = g x) : xs.all f = xs.all g := by
  induction xs with
  | cons x xs ih =>
    simp only [List.all_cons, h x (List.mem_cons_self x xs)]
    rw [ih fun y hy => h y (List.mem_cons_of_mem x hy)]
  | nil => rfl

/-- Validity of an object instance depends only on the field tags. -/
theorem checkOk_obj_eq_of_tags (A B : List (PyStr × JsonValue))
    (schema : SchemaObj)
    (hAB : ∀ f, (dictGet? A f).map jtag = (dictGet? B f).map jtag) :
    checkOk (.obj A) schema = checkOk (.obj B) schema := by
  have hsome : ∀ f, (dictGet? A f).isSome = (dictGet? B f).isSome := by
    intro f
    have := congrArg Option.isSome (hAB f)
    simpa using this
  unfold checkOk
  have h1 : (match schema.jtype with
      | none => true
      | some t => typeMatches (JsonValue.obj A) t) =
      (match schema.jtype with
      | none => true
      | some t => typeMatches (JsonValue.obj B) t) := by
    cases schema.jtype <;> rfl
  have h2 : requiredOk A schema.required = requiredOk B schema.required := by
    unfold requiredOk
    exact all_congr_mem _ _ _ fun f _ => hsome f
  have h3 : propsOk A schema.properties = propsOk B schema.properties := by
    unfold propsOk
    refine all_congr_mem _ _ _ fun fp _ => ?_
    have hf := hAB fp.1
    cases hA : dictGet? A fp.1 with
    | none =>
      cases hB : dictGet? B fp.1 with
      | none => rfl
      | some w =>
        rw [hA, hB] at hf
        simp at hf
    | some v =>
      cases hB : dictGet? B fp.1 with
      | none =>
        rw [hA, hB] at hf
        simp at hf
      | some w =>
        have htag : jtag v = jtag w := by
          rw [hA, hB] at hf
          simpa using hf
        cases fp.2.jtype with
        | none => rfl
        | some t => simpa using typeMatches_eq_of_jtag htag t
  dsimp only
  rw [h1, h2, h3]

/-- `_coerce_parsed` is the coercion fold with the `json.dumps`
replacement. -/
theorem _coerce_parsed_eq_fold (fields : List (PyStr × JsonValue))
    (schema : SchemaObj) :
    _coerce_parsed fields schema =
      (requiredStringFields schema).foldl
        (coerceStepWith fun v => .str (json_dumps v)) fields := rfl

/-- Membership in `requiredStringFields` yields the witnessing property
entry. -/
theorem requiredStringFields_mem {f : PyStr} {schema : SchemaObj}
    (h : f ∈ requiredStringFields schema) :
    ∃ ps, (f, ps) ∈ schema.properties ∧ ps.jtype = some (pys "string") := by
  unfold requiredStringFields at h
  rcases List.mem_filterMap.mp h with ⟨fd, hmem, heq⟩
  by_cases hc : fd.2.jtype = some (pys "string") ∧ fd.1 ∈ schema.required
  · rw [if_pos hc] at heq
    obtain rfl : fd.1 = f := by injection heq
    exact ⟨fd.2, by simpa using hmem, hc.1⟩
  · rw [if_neg hc] at heq
    cases heq

/-- A scalar with the wrong type in a required string field makes the
whole coerced instance invalid. -/
theorem validate_fails_of_nonstring_scalar (fields : List (PyStr × JsonValue))
    (schema : SchemaObj) (raw_text : PyStr) (f : PyStr) (v : JsonValue)
    (hmem : f ∈ requiredStringFields schema)
    (hgf : dictGet? fields f = some v)
    (hcont : isContainer v = false)
    (hty : typeMatches v (pys "string") = false) :
    dictGet? (_coerce_parsed fields schema) f = some v ∧
    validate_with_schema (.obj fields) schema raw_text =
      .error (.structuredOutput
        (pys "Schema validation failed: " ++ pys "instance does not conform to schema")
        raw_text) := by
  have hget : dictGet? (_coerce_parsed fields schema) f = some v := by
    rw [_coerce_parsed_eq_fold]
    exact foldGet_stable _ _ _ _ _ hcont hgf
  refine ⟨hget, ?_⟩
  obtain ⟨ps, hps, hpstype⟩ := requiredStringFields_mem hmem
  have hprops : propsOk (_coerce_parsed fields schema) schema.properties = false := by
    by_contra hall
    have hall' : propsOk (_coerce_parsed fields schema) schema.properties = true := by
      revert hall
      cases propsOk (_coerce_parsed fields schema) schema.properties <;> simp
    have := List.all_eq_true.mp hall' (f, ps) hps
    rw [hget, hpstype] at this
    simp only at this
    rw [hty] at this
    cases this
  have hck : checkOk (.obj (_coerce_parsed fields schema)) schema = false := by
    unfold checkOk
    dsimp only
    rw [hprops]
    simp
  unfold validate_with_schema
  dsimp only
  rw [show jsonschema_validate (.obj (_coerce_parsed fields schema)) schema =
      some (pys "instance does not conform to schema") by
    unfold jsonschema_validate
    rw [if_neg (by simp [hck])]]

end SchemaValidator

/-- C6: for every parsed dict and schema, each schema-required string
field holding a container (object or array) is replaced by its
`json.dumps` serialization before validation; if masking all such
containers by plain strings would make the instance valid (i.e. those
were the only violations), validation of the coerced value succeeds; a
number or boolean in such a field is not coerced and validation fails
with a `StructuredOutputError`. -/
theorem coerce_and_validate_string_fields
    (fields : List (PyStr × SchemaValidator.JsonValue))
    (schema : SchemaValidator.SchemaObj) (raw_text : PyStr) :
    (∀ f v, f ∈ SchemaValidator.requiredStringFields schema →
      SchemaValidator.dictGet? fields f = some v →
      SchemaValidator.isContainer v = true →
      SchemaValidator.dictGet? (SchemaValidator._coerce_parsed fields schema) f =
        some (.str (SchemaValidator.json_dumps v))) ∧
    (SchemaValidator.checkOk
        (.obj (SchemaValidator.maskStringFields fields schema)) schema = true →
      SchemaValidator.validate_with_schema (.obj fields) schema raw_text =
        .ok (.obj (SchemaValidator._coerce_parsed fields schema))) ∧
    (∀ f n, f ∈ SchemaValidator.requiredStringFields schema →
      SchemaValidator.dictGet? fields f = some (.num n) →
      SchemaValidator.dictGet? (SchemaValidator._coerce_parsed fields schema) f =
          some (.num n) ∧
        SchemaValidator.validate_with_schema (.obj fields) schema raw_text =
          .error (.structuredOutput
            (pys "Schema validation failed: " ++
              pys "instance does not conform to schema") raw_text)) ∧
    (∀ f b, f ∈ SchemaValidator.requiredStringFields schema →
      SchemaValidator.dictGet? fields f = some (.bool b) →
      SchemaValidator.dictGet? (SchemaValidator._coerce_parsed fields schema) f =
          some (.bool b) ∧
        SchemaValidator.validate_with_schema (.obj fields) schema raw_text =
          .error (.structuredOutput
            (pys "Schema validation failed: " ++
              pys "instance does not conform to schema") raw_text)) := by
  refine ⟨?_, ?_, ?_, ?_⟩
  · intro f v hmem hgf hc
    rw [SchemaValidator._coerce_parsed_eq_fold]
    exact SchemaValidator.foldGet_replaced
      (fun v => .str (SchemaValidator.json_dumps v)) (fun w => rfl) _ _ _ _
      hgf hc hmem
  · intro hmask
    have htags := SchemaValidator.fold_tag_paired
      (fun v => .str (SchemaValidator.json_dumps v)) (fun _ => .str [])
      (fun w1 w2 => rfl) (SchemaValidator.requiredStringFields schema)
      fields fields (fun f => rfl)
    have hck : SchemaValidator.checkOk
        (.obj (SchemaValidator._coerce_parsed fields schema)) schema = true := by
      rw [SchemaValidator._coerce_parsed_eq_fold]
      rw [SchemaValidator.checkOk_obj_eq_of_tags _
        (SchemaValidator.maskStringFields fields schema) schema htags]
      exact hmask
    unfold SchemaValidator.validate_with_schema
    dsimp only
    rw [show SchemaValidator.jsonschema_validate
        (.obj (SchemaValidator._coerce_parsed fields schema)) schema = none by
      unfold SchemaValidator.jsonschema_validate
      rw [if_pos hck]]
  · intro f n hmem hgf
    exact SchemaValidator.validate_fails_of_nonstring_scalar fields schema
      raw_text f (.num n) hmem hgf rfl rfl
  · intro f b hmem hgf
    exact SchemaValidator.validate_fails_of_nonstring_scalar fields schema
      raw_text f (.bool b) hmem hgf rfl rfl

/-- Witness for C6 at the repository's generator schema shape: a nested
dict under required string field `"code"` is serialized and the instance
then validates; a number under `"code"` is left alone and validation
fails. -/
theorem coerce_and_validate_string_fields_witness :
    SchemaValidator.dictGet?
        (SchemaValidator._coerce_parsed
          [(pys "code", .obj [(pys "body", .str (pys "x=1"))])]
          { jtype := some (pys "object"),
            properties := [(pys "code", { jtype := some (pys "string") })],
            required := [pys "code"] })
        (pys "code") =
      some (.str (SchemaValidator.json_dumps
        (.obj [(pys "body", .str (pys "x=1"))]))) ∧
    SchemaValidator.validate_with_schema
        (.obj [(pys "code", .obj [(pys "body", .str (pys "x=1"))])])
        { jtype := some (pys "object"),
          properties := [(pys "code", { jtype := some (pys "string") })],
          required := [pys "code"] } (pys "raw") =
      .ok (.obj (SchemaValidator._coerce_parsed
        [(pys "code", .obj [(pys "body", .str (pys "x=1"))])]
        { jtype := some (pys "object"),
          properties := [(pys "code", { jtype := some (pys "string") })],
          required := [pys "code"] })) ∧
    SchemaValidator.validate_with_schema (.obj [(pys "code", .num 123)])
        { jtype := some (pys "object"),
          properties := [(pys "code", { jtype := some (pys "string") })],
          required := [pys "code"] } (pys "raw") =
      .error (.structuredOutput
        (pys "Schema validation failed: " ++
          pys "instance does not conform to schema") (pys "raw")) := by
  refine ⟨?_, ?_, ?_⟩
  · exact (coerce_and_validate_string_fields
      [(pys "code", .obj [(pys "body", .str (pys "x=1"))])]
      { jtype := some (pys "object"),
        properties := [(pys "code", { jtype := some (pys "string") })],
        required := [pys "code"] } (pys "raw")).1 (pys "code")
      (.obj [(pys "body", .str (pys "x=1"))]) (by decide) rfl rfl
  · exact (coerce_and_validate_string_fields
      [(pys "code", .obj [(pys "body", .str (pys "x=1"))])]
      { jtype := some (pys "object"),
        properties := [(pys "code", { jtype := some (pys "string") })],
        required := [pys "code"] } (pys "raw")).2.1 (by decide)
  · exact ((coerce_and_validate_string_fields [(pys "code", .num 123)]
      { jtype := some (pys "object"),
        properties := [(pys "code", { jtype := some (pys "string") })],
        required := [pys "code"] } (pys "raw")).2.2.1 (pys "code")
      123 (by decide) rfl).2

/-- C9 (amended): `parse_and_validate` is a pure function of its
arguments — two calls with the same raw text and schema yield identical
results: both return the same value, or both fail with the same
`StructuredOutputError` (same message, same raw text), or both fail with
the same uncaught `AttributeError` (the case the claim's wording misses,
reached when the parsed value is not an object while the schema requires
string fields). -/
theorem parse_and_validate_idempotent (raw_text : PyStr)
    (schema : Option SchemaValidator.SchemaObj) :
    SchemaValidator.parse_and_validate raw_text schema =
      SchemaValidator.parse_and_validate raw_text schema ∧
    ((∃ v, SchemaValidator.parse_and_validate raw_text schema = .ok v) ∨
      (∃ m rt, SchemaValidator.parse_and_validate raw_text schema =
        .error (.structuredOutput m rt)) ∨
      (∃ m, SchemaValidator.parse_and_validate raw_text schema =
        .error (.attributeError m))) := by
  refine ⟨rfl, ?_⟩
  cases h : SchemaValidator.parse_and_validate raw_text schema with
  | ok v => exact Or.inl ⟨v, rfl⟩
  | error e =>
    cases e with
    | structuredOutput m rt => exact Or.inr (Or.inl ⟨m, rt, rfl⟩)
    | attributeError m => exact Or.inr (Or.inr ⟨m, rfl⟩)

/-- C9 counterexample: on raw text `"[1]"` with a schema requiring the
string field `"code"`, `parse_and_validate` fails — deterministically,
but with an uncaught `AttributeError` from `parsed.get` rather than a
`StructuredOutputError`, so "both calls … fail with a
StructuredOutputError" does not hold at this input. -/
theorem parse_and_validate_attribute_error_counterexample :
    SchemaValidator.isOkResult
        (SchemaValidator.parse_and_validate (pys "[1]")
          (some { properties := [(pys "code", { jtype := some (pys "string") })],
                  required := [pys "code"] })) = false ∧
    SchemaValidator.isStructuredOutputResult
        (SchemaValidator.parse_and_validate (pys "[1]")
          (some { properties := [(pys "code", { jtype := some (pys "string") })],
                  required := [pys "code"] })) = false ∧
    SchemaValidator.isAttributeErrorResult
        (SchemaValidator.parse_and_validate (pys "[1]")
          (some { properties := [(pys "code", { jtype := some (pys "string") })],
                  required := [pys "code"] })) = true :=
  ⟨rfl, rfl, rfl⟩

/-- Witness for the amended C8 at the empty state. -/
theorem update_learning_log_no_root_cause_witness :
    (Agent.update_learning_log {} none 0 0).learning_log = none ∧
    (Agent.applyMemoryUpdate {} (Agent.update_learning_log {} none 0 0)).learning_log =
      ({} : Agent.MemoryNodeState).learning_log ∧
    (Agent.update_learning_log {} none 0 0).events =
      ({} : Agent.MemoryNodeState).events ++
        [Agent.step_event (pys "Updating rolling learning log...")
          ({} : Agent.MemoryNodeState).iteration 0] ∧
    (Agent.update_learning_log {} none 0 0).events ≠
      ({} : Agent.MemoryNodeState).events ∧
    (Agent.step_event (pys "Updating rolling learning log...")
        ({} : Agent.MemoryNodeState).iteration 0).type = pys "step" ∧
    ((Agent.update_learning_log {} none 0 0).events.filter
        fun ev => ev.type = pys "learning_update") =
      ({} : Agent.MemoryNodeState).events.filter
        fun ev => ev.type = pys "learning_update" :=
  update_learning_log_no_root_cause {} none 0 0 rfl


/-- One unfolding of the retry loop at an attempt below the retry
ceiling. -/
theorem callGo_step (f : Nat → PyStr) (sch : Option SchemaValidator.SchemaObj)
    (b : ℚ) (attempt : Nat) (le : Option SchemaValidator.PyError)
    (h : attempt < Router._MAX_RETRIES) :
    Router.callGo f sch b attempt le =
      match SchemaValidator.parse_and_validate (f attempt) sch with
      | .ok v => ([Router.expectedTemp b attempt], .ok v)
      | .error (.structuredOutput m r) =>
        (Router.expectedTemp b attempt ::
          (Router.callGo f sch b (attempt + 1)
            (some (.structuredOutput m r))).1,
          (Router.callGo f sch b (attempt + 1)
            (some (.structuredOutput m r))).2)
      | .error e => ([Router.expectedTemp b attempt], .error e) := by
  rw [Router.callGo.eq_def, dif_pos h]
  rfl

/-- The retry loop past the ceiling raises the last stored error. -/
theorem callGo_exhausted (f : Nat → PyStr)
    (sch : Option SchemaValidator.SchemaObj) (b : ℚ)
    (le : Option SchemaValidator.PyError) :
    Router.callGo f sch b 3 le =
      ([], .error (le.getD
        (.structuredOutput (pys "All 3 retries exhausted") []))) := by
  rw [Router.callGo.eq_def, dif_neg (by decide)]

/-- C3: the Router makes at most 3 inference attempts; the temperature
passed to the provider on attempt `i` is the base temperature plus `i`
times the fixed increment, capped at `1.0`; if all 3 attempts fail
validation, the validation error of the last attempt is raised; the first
attempt whose output validates is returned immediately with no further
attempts. -/
theorem router_call_retries (f : Nat → PyStr)
    (sch : Option SchemaValidator.SchemaObj) (b : ℚ) :
    (Router.call f sch b).1.length ≤ 3 ∧
    (∀ i, i < (Router.call f sch b).1.length →
      (Router.call f sch b).1.getD i 0 =
        min (b + (i : ℚ) * Router._RETRY_TEMPERATURE_INCREMENT) 1) ∧
    (∀ m0 r0 m1 r1 m2 r2,
      SchemaValidator.parse_and_validate (f 0) sch =
        .error (.structuredOutput m0 r0) →
      SchemaValidator.parse_and_validate (f 1) sch =
        .error (.structuredOutput m1 r1) →
      SchemaValidator.parse_and_validate (f 2) sch =
        .error (.structuredOutput m2 r2) →
      (Router.call f sch b).2 = .error (.structuredOutput m2 r2) ∧
        (Router.call f sch b).1.length = 3) ∧
    (∀ v, SchemaValidator.parse_and_validate (f 0) sch = .ok v →
      Router.call f sch b = ([Router.expectedTemp b 0], .ok v)) ∧
    (∀ m0 r0 v,
      SchemaValidator.parse_and_validate (f 0) sch =
        .error (.structuredOutput m0 r0) →
      SchemaValidator.parse_and_validate (f 1) sch = .ok v →
      Router.call f sch b =
        ([Router.expectedTemp b 0, Router.expectedTemp b 1], .ok v)) ∧
    (∀ m0 r0 m1 r1 v,
      SchemaValidator.parse_and_validate (f 0) sch =
        .error (.structuredOutput m0 r0) →
      SchemaValidator.parse_and_validate (f 1) sch =
        .error (.structuredOutput m1 r1) →
      SchemaValidator.parse_and_validate (f 2) sch = .ok v →
      (Router.call f sch b).2 = .ok v ∧
        (Router.call f sch b).1.length = 3) := by
  have hcall : Router.call f sch b = Router.callGo f sch b 0 none := rfl
  have h2 : ∀ le, Router.callGo f sch b 2 le =
      ([Router.expectedTemp b 2],
        SchemaValidator.parse_and_validate (f 2) sch) := by
    intro le
    rw [callGo_step f sch b 2 le (by decide)]
    cases hp : SchemaValidator.parse_and_validate (f 2) sch with
    | ok v => rfl
    | error e =>
      cases e with
      | structuredOutput m r => simp [callGo_exhausted]
      | attributeError m => rfl
  cases hp0 : SchemaValidator.parse_and_validate (f 0) sch with
  | ok v0 =>
    have hc : Router.call f sch b = ([Router.expectedTemp b 0], .ok v0) := by
      rw [hcall, callGo_step f sch b 0 none (by decide), hp0]
    refine ⟨by simp [hc], ?_, ?_, ?_, ?_, ?_⟩
    · intro i hi
      rw [hc] at hi ⊢
      simp only [List.length_cons, List.length_nil] at hi
      obtain rfl : i = 0 := by omega
      simp [Router.expectedTemp, List.getD]
    · intro m0 r0 m1 r1 m2 r2 e0h
      exact Except.noConfusion e0h
    · intro v hv
      injection hv with hv
      rw [hv] at hc
      exact hc
    · intro m0 r0 v e0h
      exact Except.noConfusion e0h
    · intro m0 r0 m1 r1 v e0h
      exact Except.noConfusion e0h
  | error e0 =>
    cases e0 with
    | attributeError m =>
      have hc : Router.call f sch b =
          ([Router.expectedTemp b 0], .error (.attributeError m)) := by
        rw [hcall, callGo_step f sch b 0 none (by decide), hp0]
      refine ⟨by simp [hc], ?_, ?_, ?_, ?_, ?_⟩
      · intro i hi
        rw [hc] at hi ⊢
        simp only [List.length_cons, List.length_nil] at hi
        obtain rfl : i = 0 := by omega
        simp [Router.expectedTemp, List.getD]
      · intro m0 r0 m1 r1 m2 r2 e0h
        simp at e0h
      · intro v hv
        exact Except.noConfusion hv
      · intro m0 r0 v e0h
        simp at e0h
      · intro m0 r0 m1 r1 v e0h
        simp at e0h
    | structuredOutput m0' r0' =>
      have hstep0 : Router.call f sch b =
          (Router.expectedTemp b 0 ::
            (Router.callGo f sch b 1 (some (.structuredOutput m0' r0'))).1,
            (Router.callGo f sch b 1 (some (.structuredOutput m0' r0'))).2) := by
        rw [hcall, callGo_step f sch b 0 none (by decide), hp0]
      cases hp1 : SchemaValidator.parse_and_validate (f 1) sch with
      | ok v1 =>
        have hc : Router.call f sch b =
            ([Router.expectedTemp b 0, Router.expectedTemp b 1], .ok v1) := by
          rw [hstep0, callGo_step f sch b 1 _ (by decide), hp1]
        refine ⟨by simp [hc], ?_, ?_, ?_, ?_, ?_⟩
        · intro i hi
          rw [hc] at hi ⊢
          simp only [List.length_cons, List.length_nil] at hi
          interval_cases i <;> simp [Router.expectedTemp, List.getD]
        · intro m0 r0 m1 r1 m2 r2 e0h e1h
          exact Except.noConfusion e1h
        · intro v hv
          exact Except.noConfusion hv
        · intro m0 r0 v e0h e1h
          injection e1h with e1h
          rw [e1h] at hc
          exact hc
        · intro m0 r0 m1 r1 v e0h e1h
          exact Except.noConfusion e1h
      | error e1 =>
        cases e1 with
        | attributeError m =>
          have hc : Router.call f sch b =
              ([Router.expectedTemp b 0, Router.expectedTemp b 1],
                .error (.attributeError m)) := by
            rw [hstep0, callGo_step f sch b 1 _ (by decide), hp1]
          refine ⟨by simp [hc], ?_, ?_, ?_, ?_, ?_⟩
          · intro i hi
            rw [hc] at hi ⊢
            simp only [List.length_cons, List.length_nil] at hi
            interval_cases i <;> simp [Router.expectedTemp, List.getD]
          · intro m0 r0 m1 r1 m2 r2 e0h e1h
            simp at e1h
          · intro v hv
            exact Except.noConfusion hv
          · intro m0 r0 v e0h e1h
            exact Except.noConfusion e1h
          · intro m0 r0 m1 r1 v e0h e1h
            simp at e1h
        | structuredOutput m1' r1' =>
          have hc : Router.call f sch b =
              ([Router.expectedTemp b 0, Router.expectedTemp b 1,
                Router.expectedTemp b 2],
                SchemaValidator.parse_and_validate (f 2) sch) := by
            rw [hstep0, callGo_step f sch b 1 _ (by decide), hp1]
            simp [h2]
          refine ⟨by simp [hc], ?_, ?_, ?_, ?_, ?_⟩
          · intro i hi
            rw [hc] at hi ⊢
            simp only [List.length_cons, List.length_nil] at hi
            interval_cases i <;> simp [Router.expectedTemp, List.getD]
          · intro m0 r0 m1 r1 m2 r2 e0h e1h e2h
            rw [hc]
            exact ⟨e2h, rfl⟩
          · intro v hv
            exact Except.noConfusion hv
          · intro m0 r0 v e0h e1h
            simp at e1h
          · intro m0 r0 m1 r1 v e0h e1h e2h
            rw [hc]
            exact ⟨e2h, rfl⟩

/-- Witness for C3: a provider that always answers non-JSON makes all
three attempts fail validation; the router makes exactly 3 attempts and
raises the last validation error. -/
theorem router_call_retries_witness :
    (Router.call (fun _ => pys "not json") none 0).2 =
      .error (.structuredOutput (pys "JSON parse failed") (pys "not json")) ∧
    (Router.call (fun _ => pys "not json") none 0).1.length = 3 :=
  (router_call_retries (fun _ => pys "not json") none 0).2.2.1
    (pys "JSON parse failed") (pys "not json") (pys "JSON parse failed")
    (pys "not json") (pys "JSON parse failed") (pys "not json") rfl rfl rfl

namespace Graph

/-- The `"running"` and `"max_iterations_reached"` statuses differ. -/
theorem running_ne_max : pys "running" ≠ pys "max_iterations_reached" := by decide

/-- The `"success"` and `"max_iterations_reached"` statuses differ. -/
theorem success_ne_max : pys "success" ≠ pys "max_iterations_reached" := by decide

/-- What one step from the `execute` node does, by sandbox verdict. -/
theorem stepFSM_execute (passes : Nat → Bool) (s : LoopState) :
    (passes s.iteration = true →
      stepFSM passes (.execute, s) =
        (.done,
          { s with
            last_execution_passed := true
            status := pys "success" })) ∧
    (passes s.iteration = false → s.iteration ≥ s.max_iterations →
      stepFSM passes (.execute, s) =
        (.maxIterations,
          { s with
            last_execution_passed := false
            status := pys "running" })) ∧
    (passes s.iteration = false → s.iteration < s.max_iterations →
      stepFSM passes (.execute, s) =
        (.diagnose,
          { s with
            last_execution_passed := false
            status := pys "running" })) := by
  refine ⟨fun hp => ?_, fun hp hge => ?_, fun hp hlt => ?_⟩
  · simp [stepFSM, executeNodeUpdate, _route_after_execution, hp]
  · simp [stepFSM, executeNodeUpdate, _route_after_execution, hp,
      running_ne_max, hge]
  · simp [stepFSM, executeNodeUpdate, _route_after_execution, hp,
      running_ne_max, Nat.not_le_of_lt hlt]

/-- What one step from the `increment` node does, by counter position. -/
theorem stepFSM_increment (passes : Nat → Bool) (s : LoopState) :
    (s.iteration + 1 ≥ s.max_iterations →
      stepFSM passes (.increment, s) =
        (.done,
          { s with
            iteration := s.iteration + 1
            status := pys "max_iterations_reached" })) ∧
    (s.iteration + 1 < s.max_iterations →
      stepFSM passes (.increment, s) =
        (.generate,
          { s with
            iteration := s.iteration + 1
            status := pys "running" })) := by
  constructor
  · intro hge
    simp [stepFSM, _increment_iteration, _route_after_increment, hge]
  · intro hlt
    simp [stepFSM, _increment_iteration, _route_after_increment,
      Nat.not_le_of_lt hlt, running_ne_max]

/-- One graph step preserves the configured maximum. -/
theorem stepFSM_max_const (passes : Nat → Bool) (c : GraphNode × LoopState) :
    ((stepFSM passes c).2).max_iterations = c.2.max_iterations := by
  rcases c with ⟨n, s⟩
  cases n with
  | generate => rfl
  | adversarial => rfl
  | execute =>
    simp only [stepFSM]
    split <;> rfl
  | diagnose => rfl
  | memory => rfl
  | increment =>
    simp only [stepFSM]
    split <;> (unfold _increment_iteration; dsimp only; split <;> rfl)
  | maxIterations => rfl
  | done => rfl

/-- One graph step changes the iteration counter by exactly 1 at the
`increment` node and leaves it unchanged everywhere else. -/
theorem stepFSM_iteration (passes : Nat → Bool) (c : GraphNode × LoopState) :
    (c.1 = .increment →
      ((stepFSM passes c).2).iteration = c.2.iteration + 1) ∧
    (c.1 ≠ .increment →
      ((stepFSM passes c).2).iteration = c.2.iteration) := by
  rcases c with ⟨n, s⟩
  cases n with
  | generate => exact ⟨fun h => GraphNode.noConfusion h, fun _ => rfl⟩
  | adversarial => exact ⟨fun h => GraphNode.noConfusion h, fun _ => rfl⟩
  | execute =>
    refine ⟨fun h => GraphNode.noConfusion h, fun _ => ?_⟩
    simp only [stepFSM]
    split <;> rfl
  | diagnose => exact ⟨fun h => GraphNode.noConfusion h, fun _ => rfl⟩
  | memory => exact ⟨fun h => GraphNode.noConfusion h, fun _ => rfl⟩
  | increment =>
    refine ⟨fun _ => ?_, fun h => absurd rfl h⟩
    simp only [stepFSM]
    split <;> (unfold _increment_iteration; dsimp only; split <;> rfl)
  | maxIterations => exact ⟨fun h => GraphNode.noConfusion h, fun _ => rfl⟩
  | done => exact ⟨fun h => GraphNode.noConfusion h, fun _ => rfl⟩

/-- One graph step preserves the reachability invariant. -/
theorem inv_step (passes : Nat → Bool) (c : GraphNode × LoopState)
    (h : Inv c) : Inv (stepFSM passes c) := by
  rcases c with ⟨n, s⟩
  obtain ⟨hle, hnode⟩ := h
  cases n with
  | generate => exact ⟨hle, hnode⟩
  | adversarial => exact ⟨hle, hnode⟩
  | execute =>
    by_cases hp : passes s.iteration = true
    · rw [(stepFSM_execute passes s).1 hp]
      exact ⟨hle, Or.inl rfl⟩
    · have hp' : passes s.iteration = false := by simpa using hp
      by_cases hge : s.iteration ≥ s.max_iterations
      · rw [(stepFSM_execute passes s).2.1 hp' hge]
        exact ⟨hle, trivial⟩
      · have hlt : s.iteration < s.max_iterations := Nat.lt_of_not_le hge
        rw [(stepFSM_execute passes s).2.2 hp' hlt]
        exact ⟨hle, rfl, hlt⟩
  | diagnose => exact ⟨hle, hnode⟩
  | memory => exact ⟨hle, hnode⟩
  | increment =>
    obtain ⟨hrun, hlt⟩ := hnode
    dsimp only at hlt
    by_cases hge : s.iteration + 1 ≥ s.max_iterations
    · rw [(stepFSM_increment passes s).1 hge]
      exact ⟨show s.iteration + 1 ≤ s.max_iterations by omega, Or.inr rfl⟩
    · have hlt2 : s.iteration + 1 < s.max_iterations := Nat.lt_of_not_le hge
      rw [(stepFSM_increment passes s).2 hlt2]
      exact ⟨show s.iteration + 1 ≤ s.max_iterations by omega, rfl⟩
  | maxIterations => exact ⟨hle, Or.inr rfl⟩
  | done => exact ⟨hle, hnode⟩

/-- Unfolding of the trace by one step. -/
theorem trace_succ (passes : Nat → Bool) (m n : Nat) :
    trace passes m (n + 1) = stepFSM passes (trace passes m n) := by
  unfold trace
  rw [Function.iterate_succ_apply']

/-- Every reachable configuration satisfies the invariant. -/
theorem inv_trace (passes : Nat → Bool) (m : Nat) :
    ∀ n, Inv (trace passes m n)
  | 0 => ⟨Nat.zero_le _, rfl⟩
  | n + 1 => by
    rw [trace_succ]
    exact inv_step passes _ (inv_trace passes m n)

/-- The configured maximum never changes along the trace. -/
theorem trace_max_const (passes : Nat → Bool) (m : Nat) :
    ∀ n, (trace passes m n).2.max_iterations = m
  | 0 => rfl
  | n + 1 => by
    rw [trace_succ, stepFSM_max_const]
    exact trace_max_const passes m n

/-- `done` is absorbing for the step function. -/
theorem iterate_done (passes : Nat → Bool) (c : GraphNode × LoopState)
    (h : c.1 = .done) : ∀ k, (stepFSM passes)^[k] c = c := by
  intro k
  induction k with
  | zero => rfl
  | succ k ih =>
    rw [Function.iterate_succ_apply', ih]
    rcases c with ⟨n, s⟩
    cases h
    rfl

/-- One full repair cycle from `generate`: within 6 steps the run is
either finished or back at `generate` with the counter incremented by 1
(and then still strictly below the maximum). -/
theorem cycle_from_generate (passes : Nat → Bool) (s : LoopState) :
    ((stepFSM passes)^[6] (.generate, s)).1 = .done ∨
      ((stepFSM passes)^[6] (.generate, s) =
        (.generate,
          { s with
            iteration := s.iteration + 1
            status := pys "running"
            last_execution_passed := false }) ∧
        s.iteration + 1 < s.max_iterations) := by
  have h6 : (stepFSM passes)^[6] (.generate, s) =
      (stepFSM passes)^[3] ((stepFSM passes)^[3] (.generate, s)) := by
    rw [← Function.iterate_add_apply]
  have h3 : (stepFSM passes)^[3] (.generate, s) =
      stepFSM passes (.execute, s) := by
    rw [Function.iterate_succ_apply, Function.iterate_succ_apply,
      Function.iterate_succ_apply, Function.iterate_zero_apply]
    rfl
  by_cases hp : passes s.iteration = true
  · left
    rw [h6, h3, (stepFSM_execute passes s).1 hp,
      iterate_done passes _ rfl]
  · have hp' : passes s.iteration = false := by simpa using hp
    by_cases hge : s.iteration ≥ s.max_iterations
    · left
      rw [h6, h3, (stepFSM_execute passes s).2.1 hp' hge]
      rw [Function.iterate_succ_apply,
        show stepFSM passes (.maxIterations,
          { s with last_execution_passed := false, status := pys "running" }) =
          (.done,
            { s with
              last_execution_passed := false
              status := pys "max_iterations_reached" }) from rfl,
        iterate_done passes _ rfl]
    · have hlt : s.iteration < s.max_iterations := Nat.lt_of_not_le hge
      have hdiag := (stepFSM_execute passes s).2.2 hp' hlt
      rw [h6, h3, hdiag]
      rw [Function.iterate_succ_apply, Function.iterate_succ_apply,
        Function.iterate_succ_apply, Function.iterate_zero_apply]
      rw [show stepFSM passes (.diagnose,
          { s with last_execution_passed := false, status := pys "running" }) =
          (.memory,
            { s with last_execution_passed := false, status := pys "running" })
          from rfl]
      rw [show stepFSM passes (.memory,
          { s with last_execution_passed := false, status := pys "running" }) =
          (.increment,
            { s with last_execution_passed := false, status := pys "running" })
          from rfl]
      set s' : LoopState :=
        { s with last_execution_passed := false, status := pys "running" }
        with hs'
      by_cases hge2 : s'.iteration + 1 ≥ s'.max_iterations
      · left
        rw [(stepFSM_increment passes s').1 hge2]
      · have hlt2 : s'.iteration + 1 < s'.max_iterations :=
          Nat.lt_of_not_le hge2
        right
        rw [(stepFSM_increment passes s').2 hlt2]
        exact ⟨rfl, hlt2⟩

/-- From `generate` with at most `k` iterations left, the run reaches
`done` within `6 * k + 6` further steps. -/
theorem generate_terminates (passes : Nat → Bool) :
    ∀ k (s : LoopState), s.max_iterations ≤ s.iteration + k →
      ((stepFSM passes)^[6 * k + 6] (.generate, s)).1 = .done := by
  intro k
  induction k with
  | zero =>
    intro s hle
    rcases cycle_from_generate passes s with hdone | ⟨_, hlt⟩
    · simpa using hdone
    · omega
  | succ k ih =>
    intro s hle
    have hsplit : 6 * (k + 1) + 6 = (6 * k + 6) + 6 := by ring
    rw [hsplit, Function.iterate_add_apply]
    rcases cycle_from_generate passes s with hdone | ⟨heq, _⟩
    · rw [iterate_done passes _ hdone]
      exact hdone
    · rw [heq]
      exact ih
        { s with
          iteration := s.iteration + 1
          status := pys "running"
          last_execution_passed := false } (by simp; omega)

end Graph

/-- C5: along every run, the iteration counter changes by exactly 1 at
the `increment` node and nowhere else, never exceeds the configured
maximum, and the run reaches `done` (within `6 * m + 6` steps) in exactly
one terminal status — `"success"` or `"max_iterations_reached"` — after
which the configuration is frozen; after `execute`, a passing outcome
terminates the run with status `"success"`, a failing outcome with the
counter at the maximum routes to the max-iterations terminal node, and
otherwise the loop continues to `diagnose`. -/
theorem repair_loop_iteration_machine (passes : Nat → Bool) (m : Nat) :
    (∀ n, ((Graph.trace passes m n).1 = .increment →
        (Graph.trace passes m (n + 1)).2.iteration =
          (Graph.trace passes m n).2.iteration + 1) ∧
      ((Graph.trace passes m n).1 ≠ .increment →
        (Graph.trace passes m (n + 1)).2.iteration =
          (Graph.trace passes m n).2.iteration)) ∧
    (∀ n, (Graph.trace passes m n).2.iteration ≤ m) ∧
    ((Graph.trace passes m (6 * m + 6)).1 = .done) ∧
    (∀ n, (Graph.trace passes m n).1 = .done →
      ((Graph.trace passes m n).2.status = pys "success" ∨
        (Graph.trace passes m n).2.status = pys "max_iterations_reached") ∧
      Graph.trace passes m (n + 1) = Graph.trace passes m n) ∧
    (∀ n, (Graph.trace passes m n).1 = .execute →
      (passes (Graph.trace passes m n).2.iteration = true →
        (Graph.trace passes m (n + 1)).1 = .done ∧
        (Graph.trace passes m (n + 1)).2.status = pys "success") ∧
      (passes (Graph.trace passes m n).2.iteration = false →
        (Graph.trace passes m n).2.iteration ≥ m →
        (Graph.trace passes m (n + 1)).1 = .maxIterations) ∧
      (passes (Graph.trace passes m n).2.iteration = false →
        (Graph.trace passes m n).2.iteration < m →
        (Graph.trace passes m (n + 1)).1 = .diagnose)) := by
  refine ⟨?_, ?_, ?_, ?_, ?_⟩
  · intro n
    have h := Graph.stepFSM_iteration passes (Graph.trace passes m n)
    rw [← Graph.trace_succ] at h
    exact h
  · intro n
    have h := (Graph.inv_trace passes m n).1
    rw [Graph.trace_max_const passes m n] at h
    exact h
  · exact Graph.generate_terminates passes m
      (Graph.initialLoopState m) (by simp [Graph.initialLoopState])
  · intro n hdone
    constructor
    · have h := (Graph.inv_trace passes m n).2
      rcases htr : Graph.trace passes m n with ⟨node, s⟩
      rw [htr] at hdone h
      cases hdone
      exact h
    · rw [Graph.trace_succ]
      rcases htr : Graph.trace passes m n with ⟨node, s⟩
      rw [htr] at hdone
      cases hdone
      rfl
  · intro n hexec
    have hmax := Graph.trace_max_const passes m n
    rcases htr : Graph.trace passes m n with ⟨node, s⟩
    rw [htr] at hexec hmax
    cases hexec
    dsimp at hmax ⊢
    refine ⟨fun hp => ?_, fun hp hge => ?_, fun hp hlt => ?_⟩
    · rw [Graph.trace_succ, htr, (Graph.stepFSM_execute passes s).1 hp]
      exact ⟨rfl, rfl⟩
    · rw [Graph.trace_succ, htr,
        (Graph.stepFSM_execute passes s).2.1 hp (by omega)]
    · rw [Graph.trace_succ, htr,
        (Graph.stepFSM_execute passes s).2.2 hp (by omega)]

/-- Witness for C5: with an oracle that always passes and maximum 4, the
node reached after two steps is `execute`, and one step later the run is
terminal with status `"success"`. -/
theorem repair_loop_iteration_machine_witness :
    (Graph.trace (fun _ => true) 4 3).1 = .done ∧
    (Graph.trace (fun _ => true) 4 3).2.status = pys "success" :=
  ((repair_loop_iteration_machine (fun _ => true) 4).2.2.2.2 2
    (by decide)).1 (by decide)
